import Mathlib

/-!
# Verification of the resilient structured-generation subsystem

Shallow embedding, in Lean 4, of the core of the `support_analytics`
repository: the payload-repair and schema-normalization helpers of
`infrastructure/gemini_client.py`, the retry decision of
`GoogleGenAIStructuredClient`, the `ReplayCache` of
`infrastructure/replay_cache.py`, and the two batch orchestrators
(`application/dataset_generator.py`, `application/evaluator.py`).

Python values are embedded as follows: `str` as `String` / `List Char`
(both count Unicode code points, as Python's `len` does), `int` as `Int`
(or `Nat` for indices), machine words inside SHA-256 as `Nat` with
explicit `% 2 ^ 32`, JSON values as the inductive `Json` below, Python
`dict`s as insertion-ordered association lists, and raising code as
`Option`/`Except` results.
-/

namespace SupportAnalytics

/-! ## Python string primitives

`str.strip` / `str.rstrip` with no argument remove the characters for
which `str.isspace` holds.  The predicate below lists those code points
(ASCII whitespace, the C0/C1 whitespace control characters, and the Unicode
space separators recognised by CPython). -/

/-- Code points stripped by Python's `str.strip()` / `str.rstrip()`. -/
def pySpace (c : Char) : Bool :=
  (0x09 ≤ c.toNat ∧ c.toNat ≤ 0x0d) ∨ (0x1c ≤ c.toNat ∧ c.toNat ≤ 0x1f) ∨
    c.toNat = 0x20 ∨ c.toNat = 0x85 ∨ c.toNat = 0xa0 ∨ c.toNat = 0x1680 ∨
    (0x2000 ≤ c.toNat ∧ c.toNat ≤ 0x200a) ∨ c.toNat = 0x2028 ∨
    c.toNat = 0x2029 ∨ c.toNat = 0x202f ∨ c.toNat = 0x205f ∨ c.toNat = 0x3000

/-- Python `s.rstrip()` on a list of code points. -/
def pyRstripList (l : List Char) : List Char :=
  (l.reverse.dropWhile pySpace).reverse

/-- Python `s.strip()` on a list of code points. -/
def pyStripList (l : List Char) : List Char :=
  pyRstripList (l.dropWhile pySpace)

/-- Python `s.rstrip()`. -/
def pyRstrip (s : String) : String := ⟨pyRstripList s.data⟩

/-- Python `s.strip()`. -/
def pyStrip (s : String) : String := ⟨pyStripList s.data⟩

/-- Python's slice `l[:n]` for an `int` bound `n` (negative bounds count
from the end of the list, clamping at zero). -/
def pySliceTo (l : List α) (n : Int) : List α :=
  if n < 0 then l.take ((l.length + n).toNat) else l.take n.toNat

/-- Python's slice `s[:n]` on strings. -/
def pyStrSliceTo (s : String) (n : Int) : String :=
  ⟨pySliceTo s.data n⟩

theorem pyRstripList_length_le (l : List Char) : (pyRstripList l).length ≤ l.length := by
  have h := ((List.dropWhile_suffix (l := l.reverse) pySpace).sublist).length_le
  simpa [pyRstripList] using h

theorem pyStripList_length_le (l : List Char) : (pyStripList l).length ≤ l.length := by
  calc (pyStripList l).length ≤ (l.dropWhile pySpace).length :=
        pyRstripList_length_le _
    _ ≤ l.length := ((List.dropWhile_suffix pySpace).sublist).length_le

theorem pyStrip_length_le (s : String) : (pyStrip s).length ≤ s.length :=
  pyStripList_length_le s.data

theorem pySliceTo_length_of_nonneg (l : List α) (n : Int) (hn : 0 ≤ n) :
    (pySliceTo l n).length = min n.toNat l.length := by
  have : ¬ n < 0 := not_lt.mpr hn
  simp [pySliceTo, this]

/-! ## JSON values

The JSON trees the client manipulates.  Numbers occurring in the wire
schemas and in the claims are integers, so `num` carries an `Int`;
Python `dict`s become insertion-ordered association lists. -/

inductive Json where
  | null : Json
  | bool : Bool → Json
  | num : Int → Json
  | str : String → Json
  | arr : List Json → Json
  | obj : List (String × Json) → Json

namespace Json

/-- First binding for `k`, mirroring lookup in a Python `dict` (whose keys
are unique, so first-match and last-match coincide). -/
def lookup (k : String) : List (String × Json) → Option Json
  | [] => none
  | (k', v) :: rest => if k' = k then some v else lookup k rest

/-- `isinstance(payload, dict)`. -/
def isObj : Json → Bool
  | .obj _ => true
  | _ => false

/-- `isinstance(payload, list)`. -/
def isArr : Json → Bool
  | .arr _ => true
  | _ => false

/-- `isinstance(payload, str)`. -/
def isStr : Json → Bool
  | .str _ => true
  | _ => false

end Json

theorem sizeOf_list_take_le [SizeOf α] (l : List α) (n : Nat) :
    sizeOf (l.take n) ≤ sizeOf l := by
  induction l generalizing n with
  | nil => simp
  | cons a l ih =>
    cases n with
    | zero => simp; omega
    | succ n =>
      have h := ih n
      simp only [List.take_succ_cons, List.cons.sizeOf_spec]
      omega

theorem sizeOf_pySliceTo_le [SizeOf α] (l : List α) (n : Int) :
    sizeOf (pySliceTo l n) ≤ sizeOf l := by
  unfold pySliceTo
  split <;> exact sizeOf_list_take_le _ _

/-! ## `repair_payload_to_schema_constraints`
(`infrastructure/gemini_client.py`, lines 60–94)

The function takes a parsed payload and a JSON-schema node (a Python
`dict`) and deterministically truncates length violations.  The branches
below correspond one-to-one to the Python `if` chain: each Python branch
is guarded both by the schema node's `"type"` and by an `isinstance`
check on the payload, and these guards are mutually exclusive, so the
chain is re-grouped here by payload constructor.  The result is
`Option`-valued: `none` models the `AttributeError` CPython raises from
`properties.get(key)` when the schema's `"properties"` entry exists but
is not a dict (the only raising statement in the function). -/

/-- `schema.get("properties", {}).get(key)`.  The outer `Option` is
`none` on `AttributeError` (a `"properties"` entry that is not a dict);
the inner `Option` is the `.get` result. -/
def propGet (props : Option Json) (k : String) : Option (Option Json) :=
  match props with
  | none => some none
  | some (Json.obj ps) => some (Json.lookup k ps)
  | some _ => none

mutual

/-- `repair_payload_to_schema_constraints(payload, schema)`. -/
def repairPayload (payload : Json) (schema : List (String × Json)) : Option Json :=
  match payload with
  | Json.obj fields =>
      match Json.lookup "type" schema with
      | some (Json.str "object") =>
          (repairFields (Json.lookup "properties" schema) fields).map Json.obj
      | _ => some (Json.obj fields)
  | Json.arr items =>
      match Json.lookup "type" schema with
      | some (Json.str "array") =>
          let repairedItems :=
            match Json.lookup "maxItems" schema with
            | some (Json.num m) => pySliceTo items m
            | _ => items
          match Json.lookup "items" schema with
          | some (Json.obj itemSchema) => (repairItems itemSchema repairedItems).map Json.arr
          | _ => some (Json.arr repairedItems)
      | _ => some (Json.arr items)
  | Json.str s =>
      match Json.lookup "type" schema with
      | some (Json.str "string") =>
          match Json.lookup "maxLength" schema with
          | some (Json.num n) =>
              if n < (s.length : Int) then
                some (Json.str (pyRstrip (pyStrSliceTo s (max 0 (n - 1))) ++ "…"))
              else some (Json.str (pyStrip s))
          | _ => some (Json.str (pyStrip s))
      | _ => some (Json.str s)
  | other => some other
  termination_by sizeOf payload
  decreasing_by
    all_goals simp_wf
    · split
      all_goals try omega
      all_goals exact lt_of_le_of_lt (sizeOf_pySliceTo_le _ _) (by omega)

/-- The dict comprehension over `payload.items()` in the `"object"`
branch: each value whose property sub-schema is a dict is repaired
against it, every other value is kept as is. -/
def repairFields (props : Option Json) (fields : List (String × Json)) :
    Option (List (String × Json)) :=
  match fields with
  | [] => some []
  | (k, v) :: rest =>
      match propGet props k with
      | none => none
      | some propSchema =>
          let v' : Option Json :=
            match propSchema with
            | some (Json.obj ps) => repairPayload v ps
            | _ => some v
          match v' with
          | none => none
          | some w =>
              match repairFields props rest with
              | none => none
              | some rest' => some ((k, w) :: rest')
  termination_by sizeOf fields

/-- The list comprehension in the `"array"` branch: repair the retained
items against the `items` sub-schema. -/
def repairItems (itemSchema : List (String × Json)) (items : List Json) :
    Option (List Json) :=
  match items with
  | [] => some []
  | item :: rest =>
      match repairPayload item itemSchema with
      | none => none
      | some w =>
          match repairItems itemSchema rest with
          | none => none
          | some rest' => some (w :: rest')
  termination_by sizeOf items

end

theorem repairItems_length (itemSchema : List (String × Json)) :
    ∀ (items ys : List Json), repairItems itemSchema items = some ys →
      ys.length = items.length := by
  intro items
  induction items with
  | nil =>
    intro ys h
    rw [repairItems] at h
    simp_all
  | cons item rest ih =>
    intro ys h
    rw [repairItems] at h
    cases hw : repairPayload item itemSchema with
    | none => rw [hw] at h; simp at h
    | some w =>
      rw [hw] at h
      cases hr : repairItems itemSchema rest with
      | none => rw [hr] at h; simp at h
      | some rest' =>
        rw [hr] at h
        cases h
        simpa using ih rest' hr

theorem repairFields_spec (props : Option Json) :
    ∀ (fields rf : List (String × Json)), repairFields props fields = some rf →
      rf.map Prod.fst = fields.map Prod.fst ∧
      List.Forall₂ (fun f r' => r'.1 = f.1 ∧
        ((¬ ∃ ps, propGet props f.1 = some (some (Json.obj ps))) → r' = f)) fields rf := by
  intro fields
  induction fields with
  | nil =>
    intro rf h
    rw [repairFields] at h
    simp_all
  | cons fv rest ih =>
    obtain ⟨k, v⟩ := fv
    intro rf h
    rw [repairFields] at h
    split at h
    next => simp at h
    next propSchema hp =>
      split at h
      next isch =>
        cases hw : repairPayload v isch with
        | none => rw [hw] at h; simp at h
        | some w =>
          rw [hw] at h
          cases hrest : repairFields props rest with
          | none => rw [hrest] at h; simp at h
          | some rest' =>
            rw [hrest] at h
            simp only [Option.some.injEq] at h
            subst h
            obtain ⟨ihmap, ihall⟩ := ih rest' hrest
            refine ⟨by simpa using ihmap, ?_⟩
            refine List.Forall₂.cons ⟨rfl, ?_⟩ ihall
            intro hnone
            exact absurd ⟨isch, hp⟩ hnone
      next hne =>
        cases hrest : repairFields props rest with
        | none => rw [hrest] at h; simp at h
        | some rest' =>
          rw [hrest] at h
          simp only [Option.some.injEq] at h
          subst h
          obtain ⟨ihmap, ihall⟩ := ih rest' hrest
          refine ⟨by simpa using ihmap, ?_⟩
          exact List.Forall₂.cons ⟨rfl, fun _ => rfl⟩ ihall


theorem pyRstrip_length_le (s : String) : (pyRstrip s).length ≤ s.length :=
  pyRstripList_length_le s.data

theorem string_take_length (s : String) (k : Nat) : (s.take k).length = min k s.length := by
  rw [String.take_eq]
  show (s.data.take k).length = _
  simp

theorem repair_string_node (schema : List (String × Json)) (s : String) (n : Int)
    (hType : Json.lookup "type" schema = some (Json.str "string"))
    (hMax : Json.lookup "maxLength" schema = some (Json.num n))
    (hn : 1 ≤ n) :
    ((n < (s.length : Int) →
        repairPayload (Json.str s) schema
          = some (Json.str (pyRstrip (s.take (n.toNat - 1)) ++ "…")) ∧
        ((pyRstrip (s.take (n.toNat - 1)) ++ "…").length : Int) ≤ n) ∧
      (¬ n < (s.length : Int) →
        repairPayload (Json.str s) schema = some (Json.str (pyStrip s)) ∧
        ((pyStrip s).length : Int) ≤ n)) := by
  have hslice : pyStrSliceTo s (max 0 (n - 1)) = s.take (n.toNat - 1) := by
    have h0 : ¬ ((max 0 (n - 1)) < 0) := not_lt.mpr (le_max_left _ _)
    rw [String.take_eq]
    unfold pyStrSliceTo pySliceTo
    rw [if_neg h0]
    have hteq : (max 0 (n - 1)).toNat = n.toNat - 1 := by omega
    rw [hteq]
  constructor
  · intro hgt
    have hout : repairPayload (Json.str s) schema
        = some (Json.str (pyRstrip (pyStrSliceTo s (max 0 (n - 1))) ++ "…")) := by
      rw [repairPayload]
      simp only [hType, hMax]
      rw [if_pos hgt]
    rw [hslice] at hout
    refine ⟨hout, ?_⟩
    have h1 : (pyRstrip (s.take (n.toNat - 1))).length ≤ (s.take (n.toNat - 1)).length :=
      pyRstrip_length_le _
    have h2 : (s.take (n.toNat - 1)).length = min (n.toNat - 1) s.length :=
      string_take_length _ _
    have h3 : (pyRstrip (s.take (n.toNat - 1)) ++ "…").length
        = (pyRstrip (s.take (n.toNat - 1))).length + ("…" : String).length :=
      String.length_append _ _
    have h4 : ("…" : String).length = 1 := by decide
    omega
  · intro hle
    have hout : repairPayload (Json.str s) schema = some (Json.str (pyStrip s)) := by
      rw [repairPayload]
      simp only [hType, hMax]
      rw [if_neg hle]
    refine ⟨hout, ?_⟩
    have h1 : (pyStrip s).length ≤ s.length := pyStrip_length_le s
    omega

theorem repair_array_node (schema : List (String × Json)) (items : List Json) (m : Int)
    (hType : Json.lookup "type" schema = some (Json.str "array"))
    (hMax : Json.lookup "maxItems" schema = some (Json.num m))
    (hm : 0 ≤ m) (hgt : m < (items.length : Int)) :
    (∀ r, repairPayload (Json.arr items) schema = some r →
        ∃ ys, r = Json.arr ys ∧ (ys.length : Int) = m) ∧
      ((∀ isch, Json.lookup "items" schema ≠ some (Json.obj isch)) →
        repairPayload (Json.arr items) schema = some (Json.arr (items.take m.toNat))) := by
  have hsl : pySliceTo items m = items.take m.toNat := by
    unfold pySliceTo
    rw [if_neg (not_lt.mpr hm)]
  have hlenSlice : (pySliceTo items m).length = m.toNat := by
    rw [pySliceTo_length_of_nonneg _ _ hm]
    omega
  constructor
  · intro r hr
    rw [repairPayload] at hr
    simp only [hType, hMax] at hr
    split at hr
    next isch _ =>
      cases hys : repairItems isch (pySliceTo items m) with
      | none => rw [hys] at hr; simp at hr
      | some ys =>
        rw [hys] at hr
        simp only [Option.map_some', Option.some.injEq] at hr
        refine ⟨ys, hr.symm, ?_⟩
        have := repairItems_length isch _ ys hys
        omega
    next =>
      simp only [Option.some.injEq] at hr
      exact ⟨pySliceTo items m, hr.symm, by omega⟩
  · intro hni
    rw [repairPayload]
    simp only [hType, hMax]
    rw [hsl]


/-- **C5** (amended).  At a `"string"` schema node with a positive integer
`maxLength`, an overlong payload string is truncated to `maxLength − 1`
code points, trailing whitespace is stripped, and an ellipsis is
appended, yielding a string of length at most `maxLength`; a string
within the limit is merely stripped of surrounding whitespace.  At an
`"array"` schema node with a nonnegative integer `maxItems`, an array
exceeding the bound is truncated to exactly `maxItems` items (dropping
the trailing ones).  The amendment restricts the claim to `maxLength ≥ 1`
and `maxItems ≥ 0`: for `maxLength = 0` the code produces the one-character
string `"…"`, exceeding the limit (see the counterexample). -/
theorem repair_truncates_to_schema_limits :
    (∀ (schema : List (String × Json)) (s : String) (n : Int),
      Json.lookup "type" schema = some (Json.str "string") →
      Json.lookup "maxLength" schema = some (Json.num n) →
      1 ≤ n →
      ((n < (s.length : Int) →
          repairPayload (Json.str s) schema
            = some (Json.str (pyRstrip (s.take (n.toNat - 1)) ++ "…")) ∧
          ((pyRstrip (s.take (n.toNat - 1)) ++ "…").length : Int) ≤ n) ∧
        (¬ n < (s.length : Int) →
          repairPayload (Json.str s) schema = some (Json.str (pyStrip s)) ∧
          ((pyStrip s).length : Int) ≤ n))) ∧
    (∀ (schema : List (String × Json)) (items : List Json) (m : Int),
      Json.lookup "type" schema = some (Json.str "array") →
      Json.lookup "maxItems" schema = some (Json.num m) →
      0 ≤ m → m < (items.length : Int) →
      (∀ r, repairPayload (Json.arr items) schema = some r →
          ∃ ys, r = Json.arr ys ∧ (ys.length : Int) = m) ∧
        ((∀ isch, Json.lookup "items" schema ≠ some (Json.obj isch)) →
          repairPayload (Json.arr items) schema = some (Json.arr (items.take m.toNat)))) :=
  ⟨fun schema s n hT hM hn => repair_string_node schema s n hT hM hn,
   fun schema items m hT hM hm hgt => repair_array_node schema items m hT hM hm hgt⟩

/-- Witness for C5: a concrete overlong string is truncated with an
ellipsis within the bound, and a concrete 3-element array with
`maxItems = 2` is truncated to its first two items. -/
theorem repair_truncates_to_schema_limits_witness :
    (repairPayload (Json.str "hello  ") [("type", Json.str "string"), ("maxLength", Json.num 4)]
        = some (Json.str (pyRstrip ("hello  ".take 3) ++ "…")) ∧
      ((pyRstrip ("hello  ".take 3) ++ "…").length : Int) ≤ 4) ∧
    repairPayload (Json.arr [Json.num 1, Json.num 2, Json.num 3])
        [("type", Json.str "array"), ("maxItems", Json.num 2)]
      = some (Json.arr ([Json.num 1, Json.num 2, Json.num 3].take 2)) := by
  constructor
  · exact (repair_truncates_to_schema_limits.1
      [("type", Json.str "string"), ("maxLength", Json.num 4)] "hello  " 4
      (by simp [Json.lookup]) (by simp [Json.lookup]) (by norm_num)).1 (by decide)
  · exact (repair_truncates_to_schema_limits.2
      [("type", Json.str "array"), ("maxItems", Json.num 2)]
      [Json.num 1, Json.num 2, Json.num 3] 2
      (by simp [Json.lookup]) (by simp [Json.lookup]) (by norm_num) (by decide)).2
      (by intro isch; simp [Json.lookup])

/-- Counterexample for C5 as frozen: with `maxLength = 0` (legal in JSON
Schema) and the nonempty payload `"x"`, the repaired string is `"…"`,
whose length 1 exceeds the schema maximum 0. -/
theorem repair_maxLength_zero_counterexample :
    repairPayload (Json.str "x") [("type", Json.str "string"), ("maxLength", Json.num 0)]
      = some (Json.str "…") ∧
    ¬ ((("…" : String).length : Int) ≤ 0) := by
  constructor
  · rw [repairPayload]
    simp +decide [Json.lookup, pyStrSliceTo, pySliceTo, pyRstrip, pyRstripList, pySpace]
  · decide

/-- **C9**.  At an `"object"` schema node, repair returns an object with
exactly the input's keys in order; every field whose key has no dict
sub-schema under `properties` is passed through unchanged.  A payload
whose runtime type differs from the node's declared `object`/`array`/
`string` type is returned unchanged, raising no error. -/
theorem repair_object_frame_and_type_mismatch :
    (∀ (schema fields : List (String × Json)) (r : Json),
      Json.lookup "type" schema = some (Json.str "object") →
      repairPayload (Json.obj fields) schema = some r →
      ∃ rf, r = Json.obj rf ∧ rf.map Prod.fst = fields.map Prod.fst ∧
        List.Forall₂ (fun f r' => r'.1 = f.1 ∧
          ((¬ ∃ ps, propGet (Json.lookup "properties" schema) f.1
              = some (some (Json.obj ps))) → r' = f)) fields rf) ∧
    (∀ (schema : List (String × Json)) (payload : Json),
      ((Json.lookup "type" schema = some (Json.str "object") ∧ payload.isObj = false) ∨
        (Json.lookup "type" schema = some (Json.str "array") ∧ payload.isArr = false) ∨
        (Json.lookup "type" schema = some (Json.str "string") ∧ payload.isStr = false)) →
      repairPayload payload schema = some payload) := by
  constructor
  · intro schema fields r hType hrep
    rw [repairPayload] at hrep
    simp only [hType] at hrep
    cases hrf : repairFields (Json.lookup "properties" schema) fields with
    | none => rw [hrf] at hrep; simp at hrep
    | some rf =>
      rw [hrf] at hrep
      simp only [Option.map_some', Option.some.injEq] at hrep
      obtain ⟨hmap, hall⟩ := repairFields_spec (Json.lookup "properties" schema) fields rf hrf
      exact ⟨rf, hrep.symm, hmap, hall⟩
  · intro schema payload hmis
    rcases hmis with ⟨ht, hk⟩ | ⟨ht, hk⟩ | ⟨ht, hk⟩
    · cases payload <;> simp [Json.isObj] at hk <;> rw [repairPayload] <;> simp +decide [ht]
    · cases payload <;> simp [Json.isArr] at hk <;> rw [repairPayload] <;> simp +decide [ht]
    · cases payload <;> simp [Json.isStr] at hk <;> rw [repairPayload] <;> simp +decide [ht]



/-- Witness for C9: a concrete object keeps its key and untouched value,
and a number payload under an `"object"` schema is returned unchanged. -/
theorem repair_object_frame_and_type_mismatch_witness :
    (∃ rf, (Json.obj [("a", Json.num 3)]) = Json.obj rf ∧
        rf.map Prod.fst = [("a", Json.num 3)].map Prod.fst ∧
        List.Forall₂ (fun f r' => r'.1 = f.1 ∧
          ((¬ ∃ ps, propGet (Json.lookup "properties"
              [("type", Json.str "object"), ("properties", Json.obj [])]) f.1
              = some (some (Json.obj ps))) → r' = f)) [("a", Json.num 3)] rf) ∧
    repairPayload (Json.num 5) [("type", Json.str "object")] = some (Json.num 5) := by
  constructor
  · exact repair_object_frame_and_type_mismatch.1
      [("type", Json.str "object"), ("properties", Json.obj [])]
      [("a", Json.num 3)] (Json.obj [("a", Json.num 3)])
      (by simp [Json.lookup])
      (by rw [repairPayload]
          simp +decide [Json.lookup, repairFields, propGet])
  · exact repair_object_frame_and_type_mismatch.2 [("type", Json.str "object")]
      (Json.num 5) (Or.inl ⟨by simp [Json.lookup], rfl⟩)

/-! ## Retry decision (`GoogleGenAIStructuredClient._should_retry`,
`infrastructure/gemini_client.py` lines 243–249 and 324–335)

The client's settings object is `AppSettings`
(`application/config.py`).  Attribute access on a pydantic model raises
`AttributeError` for a field that was never declared; with
`extra="ignore"`, an unknown constructor keyword is silently dropped.
`_should_retry` reads `settings.llm_fail_fast_on_quota_exhaustion`,
which `AppSettings` does not declare with any field or alias, so the
settings object is modelled with an `Option Bool` attribute slot:
`none` means the attribute is missing and access raises. -/

/-- A provider `ClientError` as `_should_retry` sees it: `getattr(error,
"code", None)` and the message string used by the quota heuristic
(`str(getattr(error, "message", "") or str(error))`). -/
structure ClientErrorModel where
  code : Option Int
  message : String

/-- Python `s.lower()`.  The quota markers are pure ASCII, for which
`Char.toLower` agrees with CPython. -/
def pyLower (s : String) : String := ⟨s.data.map Char.toLower⟩

/-- Python's `needle in haystack` on strings (substring containment). -/
def pyContains (haystack needle : List Char) : Bool :=
  match haystack with
  | [] => needle.isEmpty
  | _ :: t => needle.isPrefixOf haystack || pyContains t needle

/-- The marker list of `_is_non_transient_quota_error`. -/
def quotaMarkers : List String :=
  ["per day", "daily", "quota", "billing",
   "limit 'generatecontentrequestsperday", "limit 'generatetokensperday",
   "free_tier"]

/-- `_is_non_transient_quota_error(error)`: any marker occurs in the
lowercased message. -/
def isNonTransientQuotaError (e : ClientErrorModel) : Bool :=
  quotaMarkers.any (fun marker => pyContains (pyLower e.message).data marker.data)

/-- The attributes of the settings object that `_should_retry` reads.
`llm_fail_fast_on_quota_exhaustion` is an `Option`: `none` models an
object that does not define the attribute, so that reading it raises
`AttributeError`. -/
structure SettingsObj where
  llm_max_retries : Int
  llm_fail_fast_on_quota_exhaustion : Option Bool

/-- The field names `AppSettings` declares (`application/config.py`,
lines 17–51). -/
def appSettingsFields : List String :=
  ["llm_provider", "google_api_key", "llm_model", "generation_model",
   "evaluation_model", "gemini_model", "dataset_language", "temperature",
   "top_p", "top_k", "candidate_count", "max_output_tokens",
   "llm_max_retries", "llm_retry_base_delay_seconds",
   "llm_retry_max_delay_seconds", "cache_dir", "artifacts_dir"]

/-- `AppSettings(llm_max_retries=…, llm_fail_fast_on_quota_exhaustion=…)`:
because the class declares no `llm_fail_fast_on_quota_exhaustion` field
and `model_config` sets `extra="ignore"`, the keyword is dropped and the
resulting object does not carry the attribute, whatever value the caller
requested. -/
def appSettings (max_retries : Int) (_requested_fail_fast : Bool) : SettingsObj :=
  { llm_max_retries := max_retries,
    llm_fail_fast_on_quota_exhaustion := none }

/-- `_should_retry(error=…, attempt=…)`.  `Except.error` models a raised
`AttributeError` escaping the retry loop. -/
def shouldRetry (settings : SettingsObj) (e : ClientErrorModel) (attempt : Int) :
    Except String Bool :=
  if e.code ≠ some 429 then Except.ok false
  else
    match settings.llm_fail_fast_on_quota_exhaustion with
    | none => Except.error "AttributeError: llm_fail_fast_on_quota_exhaustion"
    | some fail_fast =>
        if fail_fast && isNonTransientQuotaError e then Except.ok false
        else Except.ok (decide (attempt < settings.llm_max_retries))

/-- The 429 quota-exhaustion error from the repository's own test
`test_google_genai_detects_non_transient_quota_exhaustion`. -/
def quotaExhaustedError : ClientErrorModel :=
  { code := some 429,
    message := "Quota exceeded for limit 'GenerateContentRequestsPerDayPerProjectPerModel-FreeTier'." }

/-- **C6** (code bug).  The claim describes the intended fail-fast
behaviour, and the decision logic of `_should_retry` does implement it —
third conjunct: with the attribute present and true, a daily-quota 429
is never retried at any attempt.  But `AppSettings` never declares
`llm_fail_fast_on_quota_exhaustion` (second conjunct), and with
`extra="ignore"` the constructor keyword the repository's own test
passes is dropped, so on the actual settings object `_should_retry`
raises `AttributeError` instead of returning `False` (first conjunct). -/
theorem shouldRetry_quota_fail_fast :
    (∀ attempt : Int,
      shouldRetry (appSettings 10 true) quotaExhaustedError attempt
        = Except.error "AttributeError: llm_fail_fast_on_quota_exhaustion") ∧
    "llm_fail_fast_on_quota_exhaustion" ∉ appSettingsFields ∧
    (∀ (max_retries attempt : Int),
      shouldRetry
          { llm_max_retries := max_retries,
            llm_fail_fast_on_quota_exhaustion := some true }
          quotaExhaustedError attempt
        = Except.ok false) := by
  refine ⟨?_, by decide, ?_⟩
  · intro attempt
    rfl
  · intro max_retries attempt
    simp [shouldRetry, quotaExhaustedError]
    intro h
    exact absurd h (by decide)

/-! ## ReplayCache (`infrastructure/replay_cache.py`)

Durable storage is a path-to-content map.  A `ReplayCache` instance
holds nothing but its root directory (`__init__` records `root` and
creates the directory), so a freshly constructed instance over the same
root denotes the same functions of `(root, storage)`: the round-trip
theorem below covers the simulated process restart verbatim.

The pydantic (de)serialization of the cached model
(`model_dump_json` / `model_validate_json`) belongs to an external
library; it enters as a codec parameter together with its round-trip
contract, which the witness discharges with a concrete codec. -/

/-- Durable storage: file path ↦ file text. -/
abbrev FileStore := List (String × String)

/-- Read a file, `none` if the path does not exist. -/
def fsRead (fs : FileStore) (p : String) : Option String :=
  match fs with
  | [] => none
  | (p', c) :: rest => if p' = p then some c else fsRead rest p

/-- `path.write_text`: overwrite or create. -/
def fsWrite (fs : FileStore) (p : String) (content : String) : FileStore :=
  match fs with
  | [] => [(p, content)]
  | (p', c) :: rest =>
      if p' = p then (p', content) :: rest else (p', c) :: fsWrite rest p content

theorem fsRead_fsWrite_self (fs : FileStore) (p content : String) :
    fsRead (fsWrite fs p content) p = some content := by
  induction fs with
  | nil => simp [fsWrite, fsRead]
  | cons pc rest ih =>
    obtain ⟨p', c⟩ := pc
    by_cases h : p' = p <;> simp [fsWrite, fsRead, h, ih]

/-- The pydantic serialization of the cached model type, with its
validation contract left abstract (external collaborator). -/
structure PydanticCodec (α : Type) where
  dump : α → String
  validate : String → Except String α

namespace ReplayCache

/-- `ReplayCache._path_for(key)`: `root / key[:2] / f"{key}.json"`. -/
def path_for (root key : String) : String :=
  root ++ "/" ++ key.take 2 ++ "/" ++ key ++ ".json"

/-- `ReplayCache.store(key, payload)`. -/
def store (c : PydanticCodec α) (root key : String) (payload : α) (fs : FileStore) :
    FileStore :=
  fsWrite fs (path_for root key) (c.dump payload)

/-- `ReplayCache.load(key, schema)`: absent file ↦ `none`; an existing
file is validated, and a validation failure raises (`Except.error`). -/
def load (c : PydanticCodec α) (root key : String) (fs : FileStore) :
    Except String (Option α) :=
  match fsRead fs (path_for root key) with
  | none => Except.ok none
  | some text => (c.validate text).map some

end ReplayCache

/-- **C3**.  `store` then `load` of the same key — on the same storage,
hence also through a fresh `ReplayCache` instance over the same root —
returns a value equal to the one stored, given the pydantic round-trip
contract for the cached model type. -/
theorem replayCache_store_load_roundtrip {α} (c : PydanticCodec α)
    (hrt : ∀ v, c.validate (c.dump v) = Except.ok v) :
    ∀ (fs : FileStore) (root key : String) (v : α),
      ReplayCache.load c root key (ReplayCache.store c root key v fs)
        = Except.ok (some v) := by
  intro fs root key v
  unfold ReplayCache.load ReplayCache.store
  rw [fsRead_fsWrite_self]
  simp [hrt, Except.map]

/-- A concrete codec for the witnesses: booleans as their JSON text. -/
def boolCodec : PydanticCodec Bool :=
  { dump := fun b => if b then "true" else "false",
    validate := fun s =>
      if s = "true" then Except.ok true
      else if s = "false" then Except.ok false
      else Except.error "validation failed" }

/-- Witness for C3 at a concrete codec, storage, root, key and value. -/
theorem replayCache_store_load_roundtrip_witness :
    ReplayCache.load boolCodec "cache" "abcd"
        (ReplayCache.store boolCodec "cache" "abcd" true [])
      = Except.ok (some true) :=
  replayCache_store_load_roundtrip boolCodec (by intro v; cases v <;> rfl) []
    "cache" "abcd" true

/-- **C8**.  `load` answers "absent" exactly when no file exists for the
key; an existing file whose content fails validation makes `load` raise
the validation error rather than return absent or a value. -/
theorem replayCache_load_corrupt_entry_raises {α} (c : PydanticCodec α) :
    ∀ (fs : FileStore) (root key : String),
      (ReplayCache.load c root key fs = Except.ok none ↔
        fsRead fs (ReplayCache.path_for root key) = none) ∧
      (∀ text err, fsRead fs (ReplayCache.path_for root key) = some text →
        c.validate text = Except.error err →
        ReplayCache.load c root key fs = Except.error err) := by
  intro fs root key
  constructor
  · constructor
    · intro h
      cases hr : fsRead fs (ReplayCache.path_for root key) with
      | none => rfl
      | some text =>
        exfalso
        unfold ReplayCache.load at h
        rw [hr] at h
        revert h
        cases hv : c.validate text <;> simp [Except.map, hv]
    · intro h
      unfold ReplayCache.load
      rw [h]
  · intro text err hread hval
    unfold ReplayCache.load
    rw [hread]
    simp [hval, Except.map]

/-- Witness for C8: on empty storage the entry is absent, and a corrupt
entry under the key's path makes `load` raise. -/
theorem replayCache_load_corrupt_entry_raises_witness :
    (ReplayCache.load boolCodec "cache" "abcd" [] = Except.ok none ↔
      fsRead [] (ReplayCache.path_for "cache" "abcd") = none) ∧
    ReplayCache.load boolCodec "cache" "abcd"
        [(ReplayCache.path_for "cache" "abcd", "garbage")]
      = Except.error "validation failed" := by
  constructor
  · exact (replayCache_load_corrupt_entry_raises boolCodec [] "cache" "abcd").1
  · exact (replayCache_load_corrupt_entry_raises boolCodec
      [(ReplayCache.path_for "cache" "abcd", "garbage")] "cache" "abcd").2
      "garbage" "validation failed" (by simp [fsRead]) (by rfl)

/-! ## `ReplayCache.build_key` (`infrastructure/replay_cache.py`, lines 18–42)

`build_key` is
`sha256(json.dumps({...six fields...}, ensure_ascii=False, sort_keys=True).encode("utf-8")).hexdigest()`.
Below: the canonical JSON serialization (`json.dumps` with sorted keys
and default separators), the UTF-8 encoder, and SHA-256 itself, all as
pure functions on `Nat`/`List` with 32-bit arithmetic written as
explicit `% 2 ^ 32`. -/

/-- Truncate to a 32-bit word. -/
def w32 (x : Nat) : Nat := x % 2 ^ 32

/-- 32-bit right rotation. -/
def rotr32 (x n : Nat) : Nat := w32 (x >>> n ||| x <<< (32 - n))

/-- 32-bit complement. -/
def not32 (x : Nat) : Nat := 0xffffffff ^^^ x

def bigSigma0 (x : Nat) : Nat := rotr32 x 2 ^^^ rotr32 x 13 ^^^ rotr32 x 22

def bigSigma1 (x : Nat) : Nat := rotr32 x 6 ^^^ rotr32 x 11 ^^^ rotr32 x 25

def smallSigma0 (x : Nat) : Nat := rotr32 x 7 ^^^ rotr32 x 18 ^^^ (x >>> 3)

def smallSigma1 (x : Nat) : Nat := rotr32 x 17 ^^^ rotr32 x 19 ^^^ (x >>> 10)

/-- The eight 32-bit words of a SHA-256 state. -/
structure Hash8 where
  a : Nat
  b : Nat
  c : Nat
  d : Nat
  e : Nat
  f : Nat
  g : Nat
  h : Nat
  deriving DecidableEq

/-- SHA-256 round constants. -/
def sha256K : List Nat :=
  [1116352408, 1899447441, 3049323471, 3921009573, 961987163, 1508970993,
   2453635748, 2870763221, 3624381080, 310598401, 607225278, 1426881987,
   1925078388, 2162078206, 2614888103, 3248222580, 3835390401, 4022224774,
   264347078, 604807628, 770255983, 1249150122, 1555081692, 1996064986,
   2554220882, 2821834349, 2952996808, 3210313671, 3336571891, 3584528711,
   113926993, 338241895, 666307205, 773529912, 1294757372, 1396182291,
   1695183700, 1986661051, 2177026350, 2456956037, 2730485921, 2820302411,
   3259730800, 3345764771, 3516065817, 3600352804, 4094571909, 275423344,
   430227734, 506948616, 659060556, 883997877, 958139571, 1322822218,
   1537002063, 1747873779, 1955562222, 2024104815, 2227730452, 2361852424,
   2428436474, 2756734187, 3204031479, 3329325298]

/-- SHA-256 initial state. -/
def sha256H0 : Hash8 :=
  ⟨1779033703, 3144134277, 1013904242, 2773480762,
   1359893119, 2600822924, 528734635, 1541459225⟩

/-- One compression round on `(Wᵢ, Kᵢ)`. -/
def sha256Round (s : Hash8) (wk : Nat × Nat) : Hash8 :=
  let ch := (s.e &&& s.f) ^^^ (not32 s.e &&& s.g)
  let maj := (s.a &&& s.b) ^^^ (s.a &&& s.c) ^^^ (s.b &&& s.c)
  let t1 := w32 (s.h + bigSigma1 s.e + ch + wk.2 + wk.1)
  let t2 := w32 (bigSigma0 s.a + maj)
  ⟨w32 (t1 + t2), s.a, s.b, s.c, w32 (s.d + t1), s.e, s.f, s.g⟩

/-- Extend the 16 block words to the 64-entry message schedule. -/
def sha256Schedule (ws : List Nat) : List Nat :=
  (List.range 48).foldl
    (fun acc _ =>
      let k := acc.length
      acc ++ [w32 (smallSigma1 (acc.getD (k - 2) 0) + acc.getD (k - 7) 0 +
        smallSigma0 (acc.getD (k - 15) 0) + acc.getD (k - 16) 0)]) ws

/-- Big-endian 4-byte groups to 32-bit words. -/
def bytesToWords : List Nat → List Nat
  | b0 :: b1 :: b2 :: b3 :: rest =>
      (((b0 * 256 + b1) * 256 + b2) * 256 + b3) :: bytesToWords rest
  | _ => []

/-- Split a byte list into 64-byte blocks. -/
def chunk64 : List Nat → List (List Nat)
  | [] => []
  | x :: rest => ((x :: rest).take 64) :: chunk64 ((x :: rest).drop 64)
  termination_by l => l.length
  decreasing_by
    simp only [List.length_drop, List.length_cons]
    omega

/-- Componentwise 32-bit addition of states. -/
def hash8Add (x y : Hash8) : Hash8 :=
  ⟨w32 (x.a + y.a), w32 (x.b + y.b), w32 (x.c + y.c), w32 (x.d + y.d),
   w32 (x.e + y.e), w32 (x.f + y.f), w32 (x.g + y.g), w32 (x.h + y.h)⟩

/-- Compress one 64-byte block into the state. -/
def sha256Compress (st : Hash8) (block : List Nat) : Hash8 :=
  let ws := sha256Schedule (bytesToWords block)
  hash8Add st ((ws.zip sha256K).foldl sha256Round st)

/-- SHA-256 message padding: `0x80`, zeros to 56 mod 64, then the
64-bit big-endian bit length. -/
def sha256Pad (msg : List Nat) : List Nat :=
  let L := msg.length
  let k := (64 + 56 - ((L + 1) % 64)) % 64
  let bitLen := 8 * L
  msg ++ 0x80 :: List.replicate k 0 ++
    [(bitLen >>> 56) % 256, (bitLen >>> 48) % 256, (bitLen >>> 40) % 256,
     (bitLen >>> 32) % 256, (bitLen >>> 24) % 256, (bitLen >>> 16) % 256,
     (bitLen >>> 8) % 256, bitLen % 256]

/-- `hashlib.sha256(bytes)`: the final eight state words. -/
def sha256Hash (msg : List Nat) : Hash8 :=
  (chunk64 (sha256Pad msg)).foldl sha256Compress sha256H0

/-- One word as eight lowercase hex digits. -/
def toHex8 (x : Nat) : List Char :=
  (List.range 8).reverse.map (fun i => Nat.digitChar ((x >>> (4 * i)) % 16))

/-- `.hexdigest()`: 64 lowercase hex characters. -/
def hexDigest (s : Hash8) : String :=
  ⟨toHex8 s.a ++ toHex8 s.b ++ toHex8 s.c ++ toHex8 s.d ++
   toHex8 s.e ++ toHex8 s.f ++ toHex8 s.g ++ toHex8 s.h⟩

/-- UTF-8 encoding of one scalar value. -/
def utf8EncodeChar (c : Char) : List Nat :=
  let n := c.toNat
  if n < 0x80 then [n]
  else if n < 0x800 then [0xc0 + n / 0x40, 0x80 + n % 0x40]
  else if n < 0x10000 then
    [0xe0 + n / 0x1000, 0x80 + (n / 0x40) % 0x40, 0x80 + n % 0x40]
  else
    [0xf0 + n / 0x40000, 0x80 + (n / 0x1000) % 0x40,
     0x80 + (n / 0x40) % 0x40, 0x80 + n % 0x40]

/-- `str.encode("utf-8")`. -/
def utf8Encode (l : List Char) : List Nat := l.flatMap utf8EncodeChar

/-- JSON escape of one character under `ensure_ascii=False`: `"` and
`\` are escaped, control characters use the two-character shortcuts or
`\u00XX`, and every other code point is emitted raw. -/
def jsonEscapeChar (c : Char) : List Char :=
  if c = '"' then ['\\', '"']
  else if c = '\\' then ['\\', '\\']
  else if c = '\n' then ['\\', 'n']
  else if c = '\r' then ['\\', 'r']
  else if c = '\t' then ['\\', 't']
  else if c = '\x08' then ['\\', 'b']
  else if c = '\x0c' then ['\\', 'f']
  else if c.toNat < 0x20 then
    ['\\', 'u', '0', '0', Nat.digitChar (c.toNat / 16), Nat.digitChar (c.toNat % 16)]
  else [c]

def jsonEscape (l : List Char) : List Char := l.flatMap jsonEscapeChar

/-- A JSON string literal: quote, escaped body, quote. -/
def jsonQuote (s : String) : List Char := '"' :: (jsonEscape s.data ++ ['"'])

/-- Decimal digits of a natural number (`json.dumps` of a Python int). -/
def natChars (n : Nat) : List Char :=
  if n = 0 then ['0'] else ((Nat.digits 10 n).map Nat.digitChar).reverse

/-- Decimal rendering of a Python int, with sign. -/
def intChars (i : Int) : List Char :=
  if i < 0 then '-' :: natChars (-i).toNat else natChars i.toNat

/-- The canonical fingerprint serialization:
`json.dumps({..}, ensure_ascii=False, sort_keys=True)` emits the six
keys in sorted order `model, namespace, prompt, schema_name, seed,
system_instruction` with the default separators `", "` and `": "`. -/
def fingerprintPayload (namespace_ model : String) (seed : Int)
    (system_instruction prompt schema_name : String) : List Char :=
  ("\x7b\"model\": ").data ++ jsonQuote model ++
  (", \"namespace\": ").data ++ jsonQuote namespace_ ++
  (", \"prompt\": ").data ++ jsonQuote prompt ++
  (", \"schema_name\": ").data ++ jsonQuote schema_name ++
  (", \"seed\": ").data ++ intChars seed ++
  (", \"system_instruction\": ").data ++ jsonQuote system_instruction ++
  ("\x7d").data

namespace ReplayCache

/-- `ReplayCache.build_key(namespace=…, model=…, seed=…,
system_instruction=…, prompt=…, schema_name=…)`. -/
def build_key (namespace_ model : String) (seed : Int)
    (system_instruction prompt schema_name : String) : String :=
  hexDigest (sha256Hash (utf8Encode
    (fingerprintPayload namespace_ model seed system_instruction prompt schema_name)))

end ReplayCache

/-! ### Injectivity of the canonical serialization, one field at a time -/

/-- Value of a lowercase hex digit. -/
def hexVal (c : Char) : Nat :=
  if 97 ≤ c.toNat then c.toNat - 87 else c.toNat - 48

/-- Decoder for `jsonEscape`, used only to prove it injective. -/
def jsonUnescape : List Char → Option (List Char)
  | [] => some []
  | c :: rest =>
    if c = '\\' then
      match rest with
      | [] => none
      | d :: rest2 =>
        if d = '"' then (jsonUnescape rest2).map ('"' :: ·)
        else if d = '\\' then (jsonUnescape rest2).map ('\\' :: ·)
        else if d = 'n' then (jsonUnescape rest2).map ('\n' :: ·)
        else if d = 'r' then (jsonUnescape rest2).map ('\r' :: ·)
        else if d = 't' then (jsonUnescape rest2).map ('\t' :: ·)
        else if d = 'b' then (jsonUnescape rest2).map ('\x08' :: ·)
        else if d = 'f' then (jsonUnescape rest2).map ('\x0c' :: ·)
        else if d = 'u' then
          match rest2 with
          | '0' :: '0' :: h1 :: h2 :: rest3 =>
              (jsonUnescape rest3).map (Char.ofNat (16 * hexVal h1 + hexVal h2) :: ·)
          | _ => none
        else none
    else (jsonUnescape rest).map (c :: ·)

theorem hexVal_digitChar : ∀ n, n < 16 → hexVal (Nat.digitChar n) = n := by decide

theorem jsonUnescape_escape (l : List Char) : jsonUnescape (jsonEscape l) = some l := by
  induction l with
  | nil => rfl
  | cons c l ih =>
    have hstep : jsonEscape (c :: l) = jsonEscapeChar c ++ jsonEscape l := by
      simp [jsonEscape]
    rw [hstep]
    unfold jsonEscapeChar
    by_cases h1 : c = '"'
    · subst h1; rw [jsonUnescape.eq_def]; simp +decide [ih]
    by_cases h2 : c = '\\'
    · subst h2; rw [jsonUnescape.eq_def]; simp +decide [ih]
    by_cases h3 : c = '\n'
    · subst h3; rw [jsonUnescape.eq_def]; simp +decide [ih]
    by_cases h4 : c = '\r'
    · subst h4; rw [jsonUnescape.eq_def]; simp +decide [ih]
    by_cases h5 : c = '\t'
    · subst h5; rw [jsonUnescape.eq_def]; simp +decide [ih]
    by_cases h6 : c = '\x08'
    · subst h6; rw [jsonUnescape.eq_def]; simp +decide [ih]
    by_cases h7 : c = '\x0c'
    · subst h7; rw [jsonUnescape.eq_def]; simp +decide [ih]
    by_cases h8 : c.toNat < 0x20
    · simp only [h1, h2, h3, h4, h5, h6, h7, h8, if_false, if_true, ite_true, ite_false]
      rw [List.cons_append, List.cons_append, List.cons_append, List.cons_append,
        List.cons_append, List.cons_append, List.nil_append]
      rw [jsonUnescape.eq_def]
      have hdiv : c.toNat / 16 < 16 := by omega
      have hmod : c.toNat % 16 < 16 := by omega
      have hval : 16 * (c.toNat / 16) + c.toNat % 16 = c.toNat := by omega
      simp +decide [ih, hexVal_digitChar _ hdiv, hexVal_digitChar _ hmod, hval,
        Char.ofNat_toNat]
    · simp only [h1, h2, h3, h4, h5, h6, h7, h8, if_false, ite_false]
      rw [List.singleton_append, jsonUnescape.eq_def]
      simp [h2, ih]

theorem jsonEscape_injective : Function.Injective jsonEscape := by
  intro l1 l2 h
  have h1 := jsonUnescape_escape l1
  rw [h, jsonUnescape_escape l2] at h1
  exact (Option.some_injective _ h1).symm

theorem jsonQuote_injective (s1 s2 : String) (h : jsonQuote s1 = jsonQuote s2) :
    s1 = s2 := by
  unfold jsonQuote at h
  injection h with hh ht
  have h3 := List.append_cancel_right ht
  have h4 := jsonEscape_injective h3
  cases s1
  cases s2
  exact congrArg String.mk h4

/-- Decimal value of a digit list, inverse to `natChars`. -/
def natCharsVal (l : List Char) : Nat :=
  Nat.ofDigits 10 (l.reverse.map (fun c => c.toNat - 48))

theorem natCharsVal_natChars (n : Nat) : natCharsVal (natChars n) = n := by
  by_cases h : n = 0
  · subst h
    simp [natChars, natCharsVal, Nat.ofDigits]
  · have hd : ∀ d ∈ Nat.digits 10 n, (Nat.digitChar d).toNat - 48 = d := by
      intro d hdm
      have : d < 10 := Nat.digits_lt_base (by norm_num) hdm
      interval_cases d <;> rfl
    simp only [natChars, h, if_false, natCharsVal, List.reverse_reverse, ite_false]
    rw [List.map_map]
    have hmap : (Nat.digits 10 n).map ((fun c => c.toNat - 48) ∘ Nat.digitChar)
        = (Nat.digits 10 n).map id :=
      List.map_congr_left (fun d hdm => hd d hdm)
    rw [hmap, List.map_id, Nat.ofDigits_digits]

theorem natChars_injective : Function.Injective natChars := by
  intro a b h
  have := natCharsVal_natChars a
  rw [h, natCharsVal_natChars b] at this
  omega

theorem natChars_mem_digit (n : Nat) : ∀ c ∈ natChars n, 48 ≤ c.toNat ∧ c.toNat ≤ 57 := by
  intro c hc
  by_cases h : n = 0
  · subst h
    simp [natChars] at hc
    subst hc
    decide
  · simp only [natChars, h, ite_false, List.mem_reverse, List.mem_map] at hc
    obtain ⟨d, hdm, rfl⟩ := hc
    have : d < 10 := Nat.digits_lt_base (by norm_num) hdm
    interval_cases d <;> decide

theorem intChars_injective : Function.Injective intChars := by
  intro i j h
  unfold intChars at h
  by_cases hi : i < 0 <;> by_cases hj : j < 0
  · simp only [hi, hj, ite_true] at h
    injection h with _ ht
    have := natChars_injective ht
    omega
  · simp only [hi, hj, ite_true, ite_false] at h
    exfalso
    have hm : '-' ∈ natChars j.toNat := h ▸ List.mem_cons_self _ _
    have hdig := (natChars_mem_digit j.toNat '-' hm).1
    have : ('-').toNat = 45 := rfl
    omega
  · simp only [hi, hj, ite_true, ite_false] at h
    exfalso
    have hm : '-' ∈ natChars i.toNat := h ▸ List.mem_cons_self _ _
    have hdig := (natChars_mem_digit i.toNat '-' hm).1
    have : ('-').toNat = 45 := rfl
    omega
  · simp only [hi, hj, ite_false] at h
    have := natChars_injective h
    omega

/-- **C2** (amended).  `build_key` is a pure function of exactly the six
request fields: equal canonical serializations give equal keys (first
conjunct), and a difference in any single field — the others held
fixed — changes the canonical serialization, i.e. the SHA-256 input
(remaining six conjuncts).  The frozen claim's stronger reading, that a
single-field difference always changes the *key* itself, cannot hold for
any fixed-width hash and is refuted separately. -/
theorem build_key_fingerprint_injectivity :
    (∀ (ns model : String) (seed : Int) (si prompt sn : String)
        (ns2 model2 : String) (seed2 : Int) (si2 prompt2 sn2 : String),
      fingerprintPayload ns model seed si prompt sn
          = fingerprintPayload ns2 model2 seed2 si2 prompt2 sn2 →
      ReplayCache.build_key ns model seed si prompt sn
          = ReplayCache.build_key ns2 model2 seed2 si2 prompt2 sn2) ∧
    (∀ (ns model : String) (seed : Int) (si prompt sn x : String), ns ≠ x →
      fingerprintPayload ns model seed si prompt sn
        ≠ fingerprintPayload x model seed si prompt sn) ∧
    (∀ (ns model : String) (seed : Int) (si prompt sn x : String), model ≠ x →
      fingerprintPayload ns model seed si prompt sn
        ≠ fingerprintPayload ns x seed si prompt sn) ∧
    (∀ (ns model : String) (seed : Int) (si prompt sn : String) (x : Int), seed ≠ x →
      fingerprintPayload ns model seed si prompt sn
        ≠ fingerprintPayload ns model x si prompt sn) ∧
    (∀ (ns model : String) (seed : Int) (si prompt sn x : String), si ≠ x →
      fingerprintPayload ns model seed si prompt sn
        ≠ fingerprintPayload ns model seed x prompt sn) ∧
    (∀ (ns model : String) (seed : Int) (si prompt sn x : String), prompt ≠ x →
      fingerprintPayload ns model seed si prompt sn
        ≠ fingerprintPayload ns model seed si x sn) ∧
    (∀ (ns model : String) (seed : Int) (si prompt sn x : String), sn ≠ x →
      fingerprintPayload ns model seed si prompt sn
        ≠ fingerprintPayload ns model seed si prompt x) := by
  refine ⟨?_, ?_, ?_, ?_, ?_, ?_, ?_⟩
  · intro ns model seed si prompt sn ns2 model2 seed2 si2 prompt2 sn2 h
    unfold ReplayCache.build_key
    rw [h]
  · intro ns model seed si prompt sn x hne h
    unfold fingerprintPayload at h
    simp only [List.append_assoc] at h
    have h1 := List.append_cancel_left h
    have h2 := List.append_cancel_left h1
    have h3 := List.append_cancel_left h2
    exact hne (jsonQuote_injective _ _ (List.append_cancel_right h3))
  · intro ns model seed si prompt sn x hne h
    unfold fingerprintPayload at h
    simp only [List.append_assoc] at h
    have h1 := List.append_cancel_left h
    exact hne (jsonQuote_injective _ _ (List.append_cancel_right h1))
  · intro ns model seed si prompt sn x hne h
    unfold fingerprintPayload at h
    simp only [List.append_assoc] at h
    have h1 := List.append_cancel_left h
    have h2 := List.append_cancel_left h1
    have h3 := List.append_cancel_left h2
    have h4 := List.append_cancel_left h3
    have h5 := List.append_cancel_left h4
    have h6 := List.append_cancel_left h5
    have h7 := List.append_cancel_left h6
    have h8 := List.append_cancel_left h7
    have h9 := List.append_cancel_left h8
    exact hne (intChars_injective (List.append_cancel_right h9))
  · intro ns model seed si prompt sn x hne h
    unfold fingerprintPayload at h
    simp only [List.append_assoc] at h
    have h1 := List.append_cancel_left h
    have h2 := List.append_cancel_left h1
    have h3 := List.append_cancel_left h2
    have h4 := List.append_cancel_left h3
    have h5 := List.append_cancel_left h4
    have h6 := List.append_cancel_left h5
    have h7 := List.append_cancel_left h6
    have h8 := List.append_cancel_left h7
    have h9 := List.append_cancel_left h8
    have h10 := List.append_cancel_left h9
    have h11 := List.append_cancel_left h10
    exact hne (jsonQuote_injective _ _ (List.append_cancel_right h11))
  · intro ns model seed si prompt sn x hne h
    unfold fingerprintPayload at h
    simp only [List.append_assoc] at h
    have h1 := List.append_cancel_left h
    have h2 := List.append_cancel_left h1
    have h3 := List.append_cancel_left h2
    have h4 := List.append_cancel_left h3
    have h5 := List.append_cancel_left h4
    exact hne (jsonQuote_injective _ _ (List.append_cancel_right h5))
  · intro ns model seed si prompt sn x hne h
    unfold fingerprintPayload at h
    simp only [List.append_assoc] at h
    have h1 := List.append_cancel_left h
    have h2 := List.append_cancel_left h1
    have h3 := List.append_cancel_left h2
    have h4 := List.append_cancel_left h3
    have h5 := List.append_cancel_left h4
    have h6 := List.append_cancel_left h5
    have h7 := List.append_cancel_left h6
    exact hne (jsonQuote_injective _ _ (List.append_cancel_right h7))

/-- Witness for C2: concrete serializations equal/distinct as the
theorem states, at one instantiation per conjunct. -/
theorem build_key_fingerprint_injectivity_witness :
    ReplayCache.build_key "n" "m" 1 "s" "p" "c"
        = ReplayCache.build_key "n" "m" 1 "s" "p" "c" ∧
    fingerprintPayload "a" "m" 1 "s" "p" "c" ≠ fingerprintPayload "b" "m" 1 "s" "p" "c" ∧
    fingerprintPayload "n" "a" 1 "s" "p" "c" ≠ fingerprintPayload "n" "b" 1 "s" "p" "c" ∧
    fingerprintPayload "n" "m" 1 "s" "p" "c" ≠ fingerprintPayload "n" "m" 2 "s" "p" "c" ∧
    fingerprintPayload "n" "m" 1 "a" "p" "c" ≠ fingerprintPayload "n" "m" 1 "b" "p" "c" ∧
    fingerprintPayload "n" "m" 1 "s" "a" "c" ≠ fingerprintPayload "n" "m" 1 "s" "b" "c" ∧
    fingerprintPayload "n" "m" 1 "s" "p" "a" ≠ fingerprintPayload "n" "m" 1 "s" "p" "b" := by
  obtain ⟨hdet, hns, hmodel, hseed, hsi, hprompt, hsn⟩ := build_key_fingerprint_injectivity
  exact ⟨hdet "n" "m" 1 "s" "p" "c" "n" "m" 1 "s" "p" "c" rfl,
    hns "a" "m" 1 "s" "p" "c" "b" (by decide),
    hmodel "n" "a" 1 "s" "p" "c" "b" (by decide),
    hseed "n" "m" 1 "s" "p" "c" 2 (by decide),
    hsi "n" "m" 1 "a" "p" "c" "b" (by decide),
    hprompt "n" "m" 1 "s" "a" "c" "b" (by decide),
    hsn "n" "m" 1 "s" "p" "a" "b" (by decide)⟩

/-- All eight state words are 32-bit. -/
def hash8Bounded (s : Hash8) : Prop :=
  s.a < 2 ^ 32 ∧ s.b < 2 ^ 32 ∧ s.c < 2 ^ 32 ∧ s.d < 2 ^ 32 ∧
  s.e < 2 ^ 32 ∧ s.f < 2 ^ 32 ∧ s.g < 2 ^ 32 ∧ s.h < 2 ^ 32

theorem hash8Add_bounded (x y : Hash8) : hash8Bounded (hash8Add x y) := by
  unfold hash8Add hash8Bounded w32
  refine ⟨?_, ?_, ?_, ?_, ?_, ?_, ?_, ?_⟩ <;>
    exact Nat.mod_lt _ (by norm_num)

theorem sha256Compress_bounded (st : Hash8) (block : List Nat) :
    hash8Bounded (sha256Compress st block) :=
  hash8Add_bounded st
    (((sha256Schedule (bytesToWords block)).zip sha256K).foldl sha256Round st)

theorem sha256Hash_bounded (msg : List Nat) : hash8Bounded (sha256Hash msg) := by
  unfold sha256Hash
  have key : ∀ (blocks : List (List Nat)) (st : Hash8), hash8Bounded st →
      hash8Bounded (blocks.foldl sha256Compress st) := by
    intro blocks
    induction blocks with
    | nil => intro st h; exact h
    | cons b bs ih =>
      intro st _
      rw [List.foldl_cons]
      exact ih (sha256Compress st b) (sha256Compress_bounded st b)
  exact key (chunk64 (sha256Pad msg)) sha256H0
    ⟨by norm_num [sha256H0], by norm_num [sha256H0], by norm_num [sha256H0],
     by norm_num [sha256H0], by norm_num [sha256H0], by norm_num [sha256H0],
     by norm_num [sha256H0], by norm_num [sha256H0]⟩

/-- The digest as a single number below `2 ^ 256`. -/
def hash8Nat (s : Hash8) : Nat :=
  ((((((s.a * 2 ^ 32 + s.b) * 2 ^ 32 + s.c) * 2 ^ 32 + s.d) * 2 ^ 32 + s.e) * 2 ^ 32 +
    s.f) * 2 ^ 32 + s.g) * 2 ^ 32 + s.h

theorem hash8Nat_lt (s : Hash8) (hs : hash8Bounded s) : hash8Nat s < 2 ^ 256 := by
  obtain ⟨h1, h2, h3, h4, h5, h6, h7, h8⟩ := hs
  unfold hash8Nat
  omega

theorem hash8Nat_inj (s t : Hash8) (hs : hash8Bounded s) (ht : hash8Bounded t)
    (h : hash8Nat s = hash8Nat t) : s = t := by
  obtain ⟨a, b, c, d, e, f, g, h'⟩ := s
  obtain ⟨a2, b2, c2, d2, e2, f2, g2, h2'⟩ := t
  obtain ⟨u1, u2, u3, u4, u5, u6, u7, u8⟩ := hs
  obtain ⟨v1, v2, v3, v4, v5, v6, v7, v8⟩ := ht
  unfold hash8Nat at h
  simp only at h u1 u2 u3 u4 u5 u6 u7 u8 v1 v2 v3 v4 v5 v6 v7 v8
  simp only [Hash8.mk.injEq]
  omega

/-- Counterexample for C2 as frozen: "any difference in any single field
yields a different key" demands an injection from the infinitely many
prompts into the `2 ^ 256` possible SHA-256 digests, which cannot exist;
so two distinct prompts (all other fields equal) must share a key. -/
theorem build_key_not_injective :
    ¬ (∀ (ns model : String) (seed : Int) (si prompt sn x : String), prompt ≠ x →
        ReplayCache.build_key ns model seed si prompt sn
          ≠ ReplayCache.build_key ns model seed si x sn) := by
  intro hinj
  let keyOf : ℕ → Hash8 := fun n =>
    sha256Hash (utf8Encode (fingerprintPayload "" "" 0 "" ⟨List.replicate n 'a'⟩ ""))
  have hb : ∀ n, hash8Bounded (keyOf n) := fun n => sha256Hash_bounded _
  let f : ℕ → Fin (2 ^ 256) := fun n => ⟨hash8Nat (keyOf n), hash8Nat_lt _ (hb n)⟩
  obtain ⟨n, m, hnm, hf⟩ := Finite.exists_ne_map_eq_of_infinite f
  have hval : hash8Nat (keyOf n) = hash8Nat (keyOf m) := congrArg Fin.val hf
  have hkey : keyOf n = keyOf m := hash8Nat_inj _ _ (hb n) (hb m) hval
  have hne : (⟨List.replicate n 'a'⟩ : String) ≠ ⟨List.replicate m 'a'⟩ := by
    intro he
    apply hnm
    have hlen := congrArg (fun s => s.data.length) he
    simpa using hlen
  exact hinj "" "" 0 "" ⟨List.replicate n 'a'⟩ "" ⟨List.replicate m 'a'⟩ hne
    (congrArg hexDigest hkey)

/-! ## Domain model (`domain/enums.py`, `domain/models.py`)

Only the parts the orchestrators manipulate; validation bounds enforced
by pydantic (`ge`/`le`/lengths) are not re-checked here because the
orchestration claims do not depend on them. -/

inductive IssueType
  | payment_issue | technical_error | account_access | plan_question | refund_request
  deriving DecidableEq

inductive CaseClass
  | successful | problematic | conflict | agent_mistake
  deriving DecidableEq

inductive ResolutionStatus
  | resolved | partially_resolved | not_resolved
  deriving DecidableEq

inductive CustomerSatisfaction
  | very_dissatisfied | dissatisfied | neutral | satisfied | delighted
  deriving DecidableEq

inductive ActorRole
  | customer | agent
  deriving DecidableEq

inductive AgentErrorType
  | tone | logic | policy | accuracy | process | empathy
  deriving DecidableEq

inductive SupportIntent
  | payment_issue | technical_error | account_access | plan_question | refund_request | other
  deriving DecidableEq

inductive SupportSatisfaction
  | satisfied | neutral | unsatisfied
  deriving DecidableEq

inductive AgentMistakeTag
  | ignored_question | incorrect_info | rude_tone | no_resolution | unnecessary_escalation
  deriving DecidableEq

structure AgentError where
  type : AgentErrorType
  description : String
  severity : Int
  deriving DecidableEq

structure DraftTurn where
  role : ActorRole
  message : String
  deriving DecidableEq

structure ChatTurn where
  turn_index : Nat
  role : ActorRole
  message : String
  deriving DecidableEq

structure ConversationDraft where
  title : String
  scenario_summary : String
  turns : List DraftTurn
  final_customer_signal : String
  deriving DecidableEq

structure ScenarioBlueprint where
  conversation_id : String
  language : String
  support_channel : String
  issue_type : IssueType
  case_class : CaseClass
  customer_profile : String
  scenario_prompt : String
  customer_tone : String
  resolution_status : ResolutionStatus
  visible_customer_satisfaction : CustomerSatisfaction
  actual_customer_satisfaction : CustomerSatisfaction
  hidden_dissatisfaction : Bool
  problem_solved : Bool
  target_answer_quality_score : Int
  required_story_beats : List String
  required_agent_errors : List AgentError
  min_turns : Int
  max_turns : Int
  generation_seed : Int
  deriving DecidableEq

structure GroundTruthLabel where
  issue_type : IssueType
  case_class : CaseClass
  resolution_status : ResolutionStatus
  visible_customer_satisfaction : CustomerSatisfaction
  actual_customer_satisfaction : CustomerSatisfaction
  hidden_dissatisfaction : Bool
  problem_solved : Bool
  answer_quality_score : Int
  required_agent_errors : List AgentError
  deriving DecidableEq

structure ConversationArtifact where
  conversation_id : String
  language : String
  support_channel : String
  title : String
  scenario_summary : String
  turns : List ChatTurn
  final_customer_signal : String
  blueprint : ScenarioBlueprint
  ground_truth : GroundTruthLabel
  deriving DecidableEq

/-- `build_turns_from_draft` (`domain/models.py`): enumerate and strip. -/
def build_turns_from_draft (turns : List DraftTurn) : List ChatTurn :=
  turns.enum.map (fun it => ⟨it.1, it.2.role, pyStrip it.2.message⟩)

structure ConversationEvaluation where
  intent : SupportIntent
  satisfaction : SupportSatisfaction
  quality_score : Int
  agent_mistakes : List AgentMistakeTag
  deriving DecidableEq

structure SupportEvaluationRecord where
  conversation_id : String
  intent : SupportIntent
  satisfaction : SupportSatisfaction
  quality_score : Int
  agent_mistakes : List AgentMistakeTag
  deriving DecidableEq

/-- `SupportEvaluationRecord.from_evaluation`. -/
def SupportEvaluationRecord.from_evaluation (conversation_id : String)
    (evaluation : ConversationEvaluation) : SupportEvaluationRecord :=
  ⟨conversation_id, evaluation.intent, evaluation.satisfaction,
   evaluation.quality_score, evaluation.agent_mistakes⟩

/-! ## Aggregates (`application/reports.py`)

The dataset manifest's `Counter`-based distribution dicts have
first-encounter key order; Python compares dicts as unordered maps, so
they are embedded as count functions.  The evaluation report's
distribution dicts iterate the enums in declaration order — a fixed
order — so they are embedded as association lists.  `average_quality
_score` is `round(mean, 2)` on floats in CPython; it is embedded as the
exact rational mean rounded to two decimals (no claim depends on its
float representation). -/

structure DatasetManifest where
  total_conversations : Nat
  seed : Int
  language : String
  model : String
  output_path : String
  distribution_by_issue : IssueType → Nat
  distribution_by_case_class : CaseClass → Nat
  hidden_dissatisfaction_cases : Nat
  agent_error_cases : Nat

/-- `build_dataset_manifest`. -/
def build_dataset_manifest (conversations : List ConversationArtifact) (seed : Int)
    (language model output_path : String) : DatasetManifest :=
  { total_conversations := conversations.length
    seed := seed
    language := language
    model := model
    output_path := output_path
    distribution_by_issue := fun it =>
      conversations.countP (fun c => c.ground_truth.issue_type = it)
    distribution_by_case_class := fun cc =>
      conversations.countP (fun c => c.ground_truth.case_class = cc)
    hidden_dissatisfaction_cases :=
      conversations.countP (fun c => c.ground_truth.hidden_dissatisfaction)
    agent_error_cases :=
      conversations.countP (fun c => !c.ground_truth.required_agent_errors.isEmpty) }

def SupportIntent.value : SupportIntent → String
  | .payment_issue => "payment_issue"
  | .technical_error => "technical_error"
  | .account_access => "account_access"
  | .plan_question => "plan_question"
  | .refund_request => "refund_request"
  | .other => "other"

def SupportSatisfaction.value : SupportSatisfaction → String
  | .satisfied => "satisfied"
  | .neutral => "neutral"
  | .unsatisfied => "unsatisfied"

def AgentMistakeTag.value : AgentMistakeTag → String
  | .ignored_question => "ignored_question"
  | .incorrect_info => "incorrect_info"
  | .rude_tone => "rude_tone"
  | .no_resolution => "no_resolution"
  | .unnecessary_escalation => "unnecessary_escalation"

def supportIntentMembers : List SupportIntent :=
  [.payment_issue, .technical_error, .account_access, .plan_question, .refund_request, .other]

def supportSatisfactionMembers : List SupportSatisfaction :=
  [.satisfied, .neutral, .unsatisfied]

def agentMistakeTagMembers : List AgentMistakeTag :=
  [.ignored_question, .incorrect_info, .rude_tone, .no_resolution, .unnecessary_escalation]

/-- `round(x, 2)` as exact decimal rounding. -/
def round2 (q : ℚ) : ℚ := (round (q * 100) : Int) / 100

structure EvaluationReport where
  input_path : String
  output_path : String
  model : String
  total_conversations : Nat
  average_quality_score : ℚ
  distribution_by_intent : List (String × Nat)
  distribution_by_satisfaction : List (String × Nat)
  distribution_by_quality_score : List (String × Nat)
  distribution_by_agent_mistake : List (String × Nat)
  records : List SupportEvaluationRecord
  deriving DecidableEq

/-- `build_evaluation_report`. -/
def build_evaluation_report (input_path output_path model : String)
    (records : List SupportEvaluationRecord) : EvaluationReport :=
  { input_path := input_path
    output_path := output_path
    model := model
    total_conversations := records.length
    average_quality_score :=
      if records.isEmpty then 0
      else round2 (((records.map (fun r => (r.quality_score : ℚ))).sum) / records.length)
    distribution_by_intent := supportIntentMembers.map (fun i =>
      (i.value, records.countP (fun r => r.intent = i)))
    distribution_by_satisfaction := supportSatisfactionMembers.map (fun s =>
      (s.value, records.countP (fun r => r.satisfaction = s)))
    distribution_by_quality_score := (List.range 5).map (fun k =>
      (⟨natChars (k + 1)⟩, records.countP (fun r => r.quality_score = ((k : Int) + 1))))
    distribution_by_agent_mistake := agentMistakeTagMembers.map (fun t =>
      (t.value, (records.flatMap (fun r => r.agent_mistakes)).count t))
    records := records }

/-! ## Python dicts for the orchestrators -/

/-- `d.get(k)` / `k in d` on an insertion-ordered dict. -/
def pyDictGet (k : String) : List (String × α) → Option α
  | [] => none
  | (k', v) :: rest => if k' = k then some v else pyDictGet k rest

/-- `d[k] = v`: overwrite in place, else append. -/
def pyDictInsert (k : String) (v : α) : List (String × α) → List (String × α)
  | [] => [(k, v)]
  | (k', v') :: rest =>
      if k' = k then (k', v) :: rest else (k', v') :: pyDictInsert k v rest

/-! ## DatasetGeneratorService (`application/dataset_generator.py`)

Constructor-injected collaborators (`StructuredLLM` port, prompt
builders from the excluded content library, and the cache's key
function) appear as the fields of `GenCtx`; the planned blueprint list
is the scenario factory's output, passed in as the loop consumes it.
Durable state (output file, manifest file, replay-cache contents) is
threaded explicitly; `llm_calls` counts `generate_structured` calls and
`events` records the progress callbacks. -/

structure GenCtx where
  model : String
  system_prompt : String
  build_prompt : ScenarioBlueprint → String
  build_key : String → String → Int → String → String → String → String
  llm : String → String → String → Int → ConversationDraft

structure GenState where
  file : List ConversationArtifact
  manifest : Option DatasetManifest
  conversations_by_id : List (String × ConversationArtifact)
  cache : List (String × ConversationDraft)
  llm_calls : Nat
  events : List (Nat × Nat × String × String)
  processed : Nat

/-- Lines 106–126: assemble the `ConversationArtifact`. -/
def artifactOf (bp : ScenarioBlueprint) (draft : ConversationDraft) : ConversationArtifact :=
  { conversation_id := bp.conversation_id
    language := bp.language
    support_channel := bp.support_channel
    title := draft.title
    scenario_summary := draft.scenario_summary
    turns := build_turns_from_draft draft.turns
    final_customer_signal := draft.final_customer_signal
    blueprint := bp
    ground_truth :=
      { issue_type := bp.issue_type
        case_class := bp.case_class
        resolution_status := bp.resolution_status
        visible_customer_satisfaction := bp.visible_customer_satisfaction
        actual_customer_satisfaction := bp.actual_customer_satisfaction
        hidden_dissatisfaction := bp.hidden_dissatisfaction
        problem_solved := bp.problem_solved
        answer_quality_score := bp.target_answer_quality_score
        required_agent_errors := bp.required_agent_errors } }

/-- `_ordered_conversations`. -/
def orderedConversations (blueprints : List ScenarioBlueprint)
    (byId : List (String × ConversationArtifact)) : List ConversationArtifact :=
  blueprints.filterMap (fun bp => pyDictGet bp.conversation_id byId)

/-- The replay-cache key computed for a blueprint (lines 83–90). -/
def genCacheKey (ctx : GenCtx) (bp : ScenarioBlueprint) : String :=
  ctx.build_key "dataset_generation" ctx.model bp.generation_seed ctx.system_prompt
    (ctx.build_prompt bp) "ConversationDraft"

/-- One iteration of the loop over blueprints (lines 70–147). -/
def genStep (ctx : GenCtx) (blueprints : List ScenarioBlueprint) (seed : Int)
    (language output_path : String) (resume force : Bool) (total : Nat)
    (st : GenState) (bp : ScenarioBlueprint) : GenState :=
  if resume ∧ (pyDictGet bp.conversation_id st.conversations_by_id).isSome then
    { st with
      processed := st.processed + 1
      events := st.events ++ [(st.processed + 1, total, bp.conversation_id, "reused-output")] }
  else
    let key := genCacheKey ctx bp
    let cached := if resume ∧ !force then pyDictGet key st.cache else none
    let draft := match cached with
      | some d => d
      | none => ctx.llm ctx.model (ctx.build_prompt bp) ctx.system_prompt bp.generation_seed
    let cache' := match cached with
      | some _ => st.cache
      | none => pyDictInsert key draft st.cache
    let calls' := match cached with
      | some _ => st.llm_calls
      | none => st.llm_calls + 1
    let was_cached := cached.isSome
    let artifact := artifactOf bp draft
    let byId' := pyDictInsert bp.conversation_id artifact st.conversations_by_id
    { file := st.file ++ [artifact]
      manifest := some (build_dataset_manifest (orderedConversations blueprints byId')
        seed language ctx.model output_path)
      conversations_by_id := byId'
      cache := cache'
      llm_calls := calls'
      events := st.events ++ [(st.processed + 1, total, bp.conversation_id,
        if was_cached then "reused-cache" else "generated")]
      processed := st.processed + 1 }

/-- `_load_existing_conversations` (lines 164–189): `(rewritten file,
filtered dict)`. -/
def loadExistingConversations (expected_ids : List String) (resume force : Bool)
    (existing : List ConversationArtifact) :
    List ConversationArtifact × List (String × ConversationArtifact) :=
  if force ∨ !resume then ([], [])
  else
    let filtered := existing.foldl (fun d c =>
      if c.conversation_id ∈ expected_ids then pyDictInsert c.conversation_id c d else d) []
    let normalized := expected_ids.filterMap (fun cid => pyDictGet cid filtered)
    (normalized, filtered)

/-- `DatasetGeneratorService.generate`: planned blueprints in, durable
state out (`Except.error` models the raised `RuntimeError`). -/
def generateRun (ctx : GenCtx) (blueprints : List ScenarioBlueprint) (seed : Int)
    (language output_path : String) (start_from : Nat) (resume force : Bool)
    (existingOutput : List ConversationArtifact) (existingManifest : Option DatasetManifest)
    (cache0 : List (String × ConversationDraft)) : Except String GenState :=
  if start_from ≥ blueprints.length then
    Except.error "start_from is out of range"
  else
    let expected_ids := blueprints.map (fun bp => bp.conversation_id)
    let fd := loadExistingConversations expected_ids resume force existingOutput
    let st0 : GenState :=
      { file := fd.1, manifest := existingManifest, conversations_by_id := fd.2,
        cache := cache0, llm_calls := 0, events := [], processed := 0 }
    let total := blueprints.length - start_from
    let final := (blueprints.drop start_from).foldl
      (genStep ctx blueprints seed language output_path resume force total) st0
    let ordered := orderedConversations blueprints final.conversations_by_id
    Except.ok { final with
      file := ordered
      manifest := some (build_dataset_manifest ordered seed language ctx.model output_path) }

/-! ## SupportQualityEvaluatorService (`application/evaluator.py`) -/

structure EvalCtx where
  model : String
  system_prompt : String
  build_prompt : ConversationArtifact → String
  build_key : String → String → Int → String → String → String → String
  llm : String → String → String → Int → ConversationEvaluation

structure EvalState where
  report : Option EvaluationReport
  records_by_id : List (String × SupportEvaluationRecord)
  cache : List (String × ConversationEvaluation)
  llm_calls : Nat
  events : List (Nat × Nat × String × String)
  processed : Nat

/-- The ordered records of `_write_report`. -/
def orderedRecords (conversations : List ConversationArtifact)
    (byId : List (String × SupportEvaluationRecord)) : List SupportEvaluationRecord :=
  conversations.filterMap (fun c => pyDictGet c.conversation_id byId)

/-- The replay-cache key computed for one conversation (lines 89–96). -/
def evalCacheKey (ctx : EvalCtx) (seed : Int) (index : Nat) (c : ConversationArtifact) :
    String :=
  ctx.build_key "support_evaluation" ctx.model (seed + index) ctx.system_prompt
    (ctx.build_prompt c) "ConversationEvaluation"

/-- One iteration of the evaluation loop (lines 75–130); the item is
`(index, conversation)` from `enumerate(…, start=start_from)`. -/
def evalStep (ctx : EvalCtx) (conversations : List ConversationArtifact) (seed : Int)
    (input_path output_path : String) (resume force : Bool) (total : Nat)
    (st : EvalState) (item : Nat × ConversationArtifact) : EvalState :=
  let c := item.2
  if resume ∧ (pyDictGet c.conversation_id st.records_by_id).isSome then
    { st with
      processed := st.processed + 1
      events := st.events ++ [(st.processed + 1, total, c.conversation_id, "reused-output")] }
  else
    let key := evalCacheKey ctx seed item.1 c
    let cached := if resume ∧ !force then pyDictGet key st.cache else none
    let evaluation := match cached with
      | some e => e
      | none => ctx.llm ctx.model (ctx.build_prompt c) ctx.system_prompt (seed + item.1)
    let cache' := match cached with
      | some _ => st.cache
      | none => pyDictInsert key evaluation st.cache
    let calls' := match cached with
      | some _ => st.llm_calls
      | none => st.llm_calls + 1
    let was_cached := cached.isSome
    let record := SupportEvaluationRecord.from_evaluation c.conversation_id evaluation
    let byId' := pyDictInsert c.conversation_id record st.records_by_id
    { report := some (build_evaluation_report input_path output_path ctx.model
        (orderedRecords conversations byId'))
      records_by_id := byId'
      cache := cache'
      llm_calls := calls'
      events := st.events ++ [(st.processed + 1, total, c.conversation_id,
        if was_cached then "reused-cache" else "generated")]
      processed := st.processed + 1 }

/-- `_load_existing_records` (lines 141–187). -/
def loadExistingRecords (expected_ids : List String) (resume force : Bool)
    (input_path output_path model : String) (existingReport : Option EvaluationReport) :
    Option EvaluationReport × List (String × SupportEvaluationRecord) :=
  if force ∨ !resume then
    (some (build_evaluation_report input_path output_path model []), [])
  else
    match existingReport with
    | none => (existingReport, [])
    | some rep =>
        let filtered := rep.records.foldl (fun d r =>
          if r.conversation_id ∈ expected_ids then pyDictInsert r.conversation_id r d else d) []
        let normalized := expected_ids.filterMap (fun cid => pyDictGet cid filtered)
        (some (build_evaluation_report input_path output_path model normalized), filtered)

/-- `SupportQualityEvaluatorService.evaluate`.  Note the empty-input
early return (lines 47–57) comes *before* the `start_from` range
check. -/
def evaluateRun (ctx : EvalCtx) (conversations : List ConversationArtifact) (seed : Int)
    (input_path output_path : String) (start_from : Nat) (resume force : Bool)
    (existingReport : Option EvaluationReport)
    (cache0 : List (String × ConversationEvaluation)) : Except String EvalState :=
  if conversations.isEmpty then
    Except.ok
      { report := some (build_evaluation_report input_path output_path ctx.model [])
        records_by_id := [], cache := cache0, llm_calls := 0, events := [], processed := 0 }
  else if start_from ≥ conversations.length then
    Except.error "start_from is out of range"
  else
    let expected_ids := conversations.map (fun c => c.conversation_id)
    let rb := loadExistingRecords expected_ids resume force input_path output_path
      ctx.model existingReport
    let st0 : EvalState :=
      { report := rb.1, records_by_id := rb.2, cache := cache0,
        llm_calls := 0, events := [], processed := 0 }
    let total := conversations.length - start_from
    let final := ((conversations.drop start_from).enumFrom start_from).foldl
      (evalStep ctx conversations seed input_path output_path resume force total) st0
    Except.ok { final with
      report := some (build_evaluation_report input_path output_path ctx.model
        (orderedRecords conversations final.records_by_id)) }

/-! ## Sample fixtures used by witnesses and counterexamples -/

def sampleBlueprint (cid : String) (gseed : Int) : ScenarioBlueprint :=
  { conversation_id := cid, language := "uk", support_channel := "live_chat",
    issue_type := .payment_issue, case_class := .successful,
    customer_profile := "self-serve admin", scenario_prompt := "double charge",
    customer_tone := "calm", resolution_status := .resolved,
    visible_customer_satisfaction := .satisfied,
    actual_customer_satisfaction := .satisfied,
    hidden_dissatisfaction := false, problem_solved := true,
    target_answer_quality_score := 80, required_story_beats := [],
    required_agent_errors := [], min_turns := 6, max_turns := 10,
    generation_seed := gseed }

def sampleDraft : ConversationDraft :=
  { title := "Sample chat title", scenario_summary := "A synthetic support chat.",
    turns := [], final_customer_signal := "thanks" }

def sampleGenCtx : GenCtx :=
  { model := "m", system_prompt := "sys",
    build_prompt := fun bp => bp.conversation_id,
    build_key := fun _ _ seed _ prompt _ => prompt ++ "#" ++ ⟨intChars seed⟩,
    llm := fun _ _ _ _ => sampleDraft }

def sampleEvaluation : ConversationEvaluation :=
  { intent := .other, satisfaction := .neutral, quality_score := 4, agent_mistakes := [] }

def sampleEvalCtx : EvalCtx :=
  { model := "m", system_prompt := "sys",
    build_prompt := fun c => c.conversation_id,
    build_key := fun _ _ seed _ prompt _ => prompt ++ "#" ++ ⟨intChars seed⟩,
    llm := fun _ _ _ _ => sampleEvaluation }

/-- **C7** (amended).  A `start_from` at or past the number of planned
items is rejected with a configuration error before any item is
processed — by the generator always (including zero planned items), and
by the evaluator whenever the input is nonempty.  The amendment records
the exception the counterexample exhibits: with zero input
conversations the evaluator returns successfully (writing an empty
report) before it ever reaches the `start_from` check. -/
theorem start_from_out_of_range_rejected :
    (∀ (ctx : GenCtx) (blueprints : List ScenarioBlueprint) (seed : Int)
        (language output_path : String) (start_from : Nat) (resume force : Bool)
        (existingOutput : List ConversationArtifact)
        (existingManifest : Option DatasetManifest)
        (cache0 : List (String × ConversationDraft)),
      blueprints.length ≤ start_from →
      generateRun ctx blueprints seed language output_path start_from resume force
          existingOutput existingManifest cache0
        = Except.error "start_from is out of range") ∧
    (∀ (ctx : EvalCtx) (conversations : List ConversationArtifact) (seed : Int)
        (input_path output_path : String) (start_from : Nat) (resume force : Bool)
        (existingReport : Option EvaluationReport)
        (cache0 : List (String × ConversationEvaluation)),
      conversations ≠ [] → conversations.length ≤ start_from →
      evaluateRun ctx conversations seed input_path output_path start_from resume force
          existingReport cache0
        = Except.error "start_from is out of range") := by
  constructor
  · intro ctx blueprints seed language output_path start_from resume force out mf c0 h
    unfold generateRun
    rw [if_pos (by omega)]
  · intro ctx conversations seed ip op start_from resume force rep c0 hne h
    unfold evaluateRun
    rw [if_neg (by simp [List.isEmpty_iff, hne]), if_pos (by omega)]

/-- Witness for C7 at concrete runs: an empty plan with `start_from = 0`
for the generator, and a one-conversation input with `start_from = 1`
for the evaluator. -/
theorem start_from_out_of_range_rejected_witness :
    generateRun sampleGenCtx [] 0 "uk" "out.jsonl" 0 true false [] none []
      = Except.error "start_from is out of range" ∧
    evaluateRun sampleEvalCtx [artifactOf (sampleBlueprint "c1" 7) sampleDraft] 0
        "in.jsonl" "report.json" 1 true false none []
      = Except.error "start_from is out of range" := by
  constructor
  · exact start_from_out_of_range_rejected.1 sampleGenCtx [] 0 "uk" "out.jsonl" 0
      true false [] none [] (by decide)
  · exact start_from_out_of_range_rejected.2 sampleEvalCtx
      [artifactOf (sampleBlueprint "c1" 7) sampleDraft] 0 "in.jsonl" "report.json" 1
      true false none [] (by simp) (by decide)

/-- Counterexample for C7 as frozen: with zero input conversations —
zero planned items, so `start_from = 0` is out of range — the evaluator
does not raise; it writes an empty report and returns. -/
theorem evaluate_empty_input_returns_ok :
    evaluateRun sampleEvalCtx [] 0 "in.jsonl" "report.json" 0 true false none []
      = Except.ok
        { report := some (build_evaluation_report "in.jsonl" "report.json" "m" [])
          records_by_id := [], cache := [], llm_calls := 0, events := [], processed := 0 } ∧
    ∀ msg, evaluateRun sampleEvalCtx [] 0 "in.jsonl" "report.json" 0 true false none []
      ≠ Except.error msg := by
  refine ⟨rfl, ?_⟩
  intro msg h
  rw [show evaluateRun sampleEvalCtx [] 0 "in.jsonl" "report.json" 0 true false none []
      = Except.ok
        { report := some (build_evaluation_report "in.jsonl" "report.json" "m" [])
          records_by_id := [], cache := [], llm_calls := 0, events := [], processed := 0 }
    from rfl] at h
  exact Except.noConfusion h

/-! ### Association-list lemmas -/

theorem pyDictGet_append_some {α} {k : String} {v : α} {d1 d2 : List (String × α)}
    (h : pyDictGet k d1 = some v) : pyDictGet k (d1 ++ d2) = some v := by
  induction d1 with
  | nil => simp [pyDictGet] at h
  | cons p rest ih =>
    obtain ⟨k', v'⟩ := p
    by_cases hk : k' = k
    · simp [pyDictGet, hk] at h ⊢
      exact h
    · simp [pyDictGet, hk] at h ⊢
      exact ih h

theorem pyDictGet_append_none {α} {k : String} {d1 d2 : List (String × α)}
    (h : pyDictGet k d1 = none) : pyDictGet k (d1 ++ d2) = pyDictGet k d2 := by
  induction d1 with
  | nil => simp
  | cons p rest ih =>
    obtain ⟨k', v'⟩ := p
    by_cases hk : k' = k
    · simp [pyDictGet, hk] at h
    · simp [pyDictGet, hk] at h ⊢
      exact ih h

theorem pyDictGet_none_of_not_mem {α} {k : String} {d : List (String × α)}
    (h : k ∉ d.map Prod.fst) : pyDictGet k d = none := by
  induction d with
  | nil => rfl
  | cons p rest ih =>
    obtain ⟨k', v'⟩ := p
    have h1 : ¬ k' = k := by
      intro he
      exact h (by simp [he])
    have h2 : k ∉ rest.map Prod.fst := fun hm => h (by simp [hm])
    simp [pyDictGet, h1, ih h2]

theorem pyDictGet_isSome_of_mem {α} {k : String} {d : List (String × α)}
    (h : k ∈ d.map Prod.fst) : (pyDictGet k d).isSome := by
  induction d with
  | nil => simp at h
  | cons p rest ih =>
    obtain ⟨k', v'⟩ := p
    by_cases hk : k' = k
    · simp [pyDictGet, hk]
    · have h2 : k ∈ rest.map Prod.fst := by
        rw [List.map_cons, List.mem_cons] at h
        rcases h with h' | h'
        · exact absurd h'.symm hk
        · exact h'
      simpa [pyDictGet, hk] using ih h2

theorem pyDictInsert_absent {α} {k : String} {v : α} {d : List (String × α)}
    (h : pyDictGet k d = none) : pyDictInsert k v d = d ++ [(k, v)] := by
  induction d with
  | nil => rfl
  | cons p rest ih =>
    obtain ⟨k', v'⟩ := p
    by_cases hk : k' = k
    · simp [pyDictGet, hk] at h
    · simp [pyDictGet, hk] at h
      simp [pyDictInsert, hk, ih h]

/-! ### Startup characterization for resumed generator runs -/

theorem buildFiltered_all_fresh (ids : List String) :
    ∀ (cs : List ConversationArtifact) (d : List (String × ConversationArtifact)),
      (∀ c ∈ cs, c.conversation_id ∈ ids) →
      (∀ c ∈ cs, pyDictGet c.conversation_id d = none) →
      ((cs.map (fun c => c.conversation_id)).Nodup) →
      cs.foldl (fun d c =>
          if c.conversation_id ∈ ids then pyDictInsert c.conversation_id c d else d) d
        = d ++ cs.map (fun c => (c.conversation_id, c)) := by
  intro cs
  induction cs with
  | nil => intro d _ _ _; simp
  | cons c rest ih =>
    intro d hmem habs hnd
    rw [List.foldl_cons, if_pos (hmem c (by simp))]
    rw [pyDictInsert_absent (habs c (by simp))]
    rw [ih (d ++ [(c.conversation_id, c)])
      (fun c' hc' => hmem c' (by simp [hc']))
      ?_ (by simpa using hnd.of_cons)]
    · simp
    · intro c' hc'
      have hne : c'.conversation_id ≠ c.conversation_id := by
        intro he
        rw [List.map_cons, List.nodup_cons] at hnd
        exact hnd.1 (he ▸ (List.mem_map.mpr ⟨c', hc', rfl⟩))
      rw [pyDictGet_append_none (habs c' (by simp [hc']))]
      simp [pyDictGet, hne]
      intro hc
      exact absurd hc.symm hne

theorem filterMap_get_self :
    ∀ (cs : List ConversationArtifact),
      ((cs.map (fun c => c.conversation_id)).Nodup) →
      (cs.map (fun c => c.conversation_id)).filterMap
          (fun k => pyDictGet k (cs.map (fun c => (c.conversation_id, c)))) = cs := by
  intro cs
  induction cs with
  | nil => simp
  | cons c rest ih =>
    intro hnd
    rw [List.map_cons, List.map_cons, List.filterMap_cons]
    have hhead : pyDictGet c.conversation_id
        ((c.conversation_id, c) :: rest.map (fun c => (c.conversation_id, c)))
        = some c := by
      simp [pyDictGet]
    rw [hhead]
    have hnotin : c.conversation_id ∉ rest.map (fun c => c.conversation_id) := by
      rw [List.map_cons, List.nodup_cons] at hnd
      exact hnd.1
    have hcong : ∀ k ∈ rest.map (fun c => c.conversation_id),
        pyDictGet k ((c.conversation_id, c) :: rest.map (fun c => (c.conversation_id, c)))
          = pyDictGet k (rest.map (fun c => (c.conversation_id, c))) := by
      intro k hk
      have : ¬ c.conversation_id = k := fun he => hnotin (he ▸ hk)
      simp [pyDictGet, this]
    rw [List.filterMap_congr hcong]
    rw [ih (by simpa using hnd.of_cons)]

theorem filterMap_get_empty {α} (ids : List String) (d : List (String × α))
    (h : ∀ k ∈ ids, pyDictGet k d = none) :
    ids.filterMap (fun k => pyDictGet k d) = [] := by
  induction ids with
  | nil => rfl
  | cons k rest ih =>
    rw [List.filterMap_cons, h k (by simp)]
    exact ih (fun k' hk' => h k' (by simp [hk']))

/-! ### The generator loop, phase by phase -/

theorem genLoop_reused_phase (ctx : GenCtx) (blueprints : List ScenarioBlueprint)
    (seed : Int) (language output_path : String) (total : Nat) :
    ∀ (l : List ScenarioBlueprint) (st : GenState),
      (∀ bp ∈ l, (pyDictGet bp.conversation_id st.conversations_by_id).isSome) →
      l.foldl (genStep ctx blueprints seed language output_path true false total) st
        = { st with
            processed := st.processed + l.length
            events := st.events ++ (l.enumFrom st.processed).map
              (fun p => (p.1 + 1, total, p.2.conversation_id, "reused-output")) } := by
  intro l
  induction l with
  | nil => intro st _; simp
  | cons bp rest ih =>
    intro st hsome
    rw [List.foldl_cons]
    have hbp := hsome bp (by simp)
    have hstep : genStep ctx blueprints seed language output_path true false total st bp
        = { st with
            processed := st.processed + 1
            events := st.events ++ [(st.processed + 1, total, bp.conversation_id,
              "reused-output")] } := by
      unfold genStep
      rw [if_pos ⟨rfl, hbp⟩]
    rw [hstep]
    rw [ih { st with
        processed := st.processed + 1
        events := st.events ++ [(st.processed + 1, total, bp.conversation_id,
          "reused-output")] }
      (fun bp' hbp' => hsome bp' (by simp [hbp']))]
    simp [List.enumFrom_cons]
    omega

theorem genLoop_fresh_phase (ctx : GenCtx) (blueprints : List ScenarioBlueprint)
    (seed : Int) (language output_path : String) (total : Nat) :
    ∀ (l : List ScenarioBlueprint) (st : GenState),
      ((l.map (fun bp => bp.conversation_id)).Nodup) →
      (∀ bp ∈ l, pyDictGet bp.conversation_id st.conversations_by_id = none) →
      ((l.map (genCacheKey ctx)).Nodup) →
      (∀ bp ∈ l, pyDictGet (genCacheKey ctx bp) st.cache = none) →
      (l.foldl (genStep ctx blueprints seed language output_path true false total) st).llm_calls
          = st.llm_calls + l.length ∧
      (l.foldl (genStep ctx blueprints seed language output_path true false total)
            st).conversations_by_id
          = st.conversations_by_id ++ l.map (fun bp => (bp.conversation_id,
              artifactOf bp (ctx.llm ctx.model (ctx.build_prompt bp) ctx.system_prompt
                bp.generation_seed))) ∧
      ∃ tl, (l.foldl (genStep ctx blueprints seed language output_path true false total)
            st).events = st.events ++ tl := by
  intro l
  induction l with
  | nil => intro st _ _ _ _; exact ⟨by simp, by simp, [], by simp⟩
  | cons bp rest ih =>
    intro st hnd habs hknd hkabs
    rw [List.foldl_cons]
    have hget := habs bp (by simp)
    have hkey := hkabs bp (by simp)
    have hstep : genStep ctx blueprints seed language output_path true false total st bp
        = { file := st.file ++ [artifactOf bp (ctx.llm ctx.model (ctx.build_prompt bp)
              ctx.system_prompt bp.generation_seed)]
            manifest := some (build_dataset_manifest (orderedConversations blueprints
              (st.conversations_by_id ++ [(bp.conversation_id,
                artifactOf bp (ctx.llm ctx.model (ctx.build_prompt bp) ctx.system_prompt
                  bp.generation_seed))])) seed language ctx.model output_path)
            conversations_by_id := st.conversations_by_id ++ [(bp.conversation_id,
              artifactOf bp (ctx.llm ctx.model (ctx.build_prompt bp) ctx.system_prompt
                bp.generation_seed))]
            cache := st.cache ++ [(genCacheKey ctx bp, ctx.llm ctx.model
              (ctx.build_prompt bp) ctx.system_prompt bp.generation_seed)]
            llm_calls := st.llm_calls + 1
            events := st.events ++ [(st.processed + 1, total, bp.conversation_id,
              "generated")]
            processed := st.processed + 1 } := by
      unfold genStep
      rw [if_neg (by simp [hget])]
      simp only [Bool.not_false, and_true, if_true, hkey, reduceIte]
      rw [pyDictInsert_absent hget, pyDictInsert_absent hkey]
      rfl
    rw [hstep]
    have hnd' : ((rest.map (fun bp => bp.conversation_id)).Nodup) := by
      simpa using hnd.of_cons
    have hknd' : ((rest.map (genCacheKey ctx)).Nodup) := by
      simpa using hknd.of_cons
    have habs' : ∀ bp' ∈ rest, pyDictGet bp'.conversation_id
        (st.conversations_by_id ++ [(bp.conversation_id,
          artifactOf bp (ctx.llm ctx.model (ctx.build_prompt bp) ctx.system_prompt
            bp.generation_seed))]) = none := by
      intro bp' hbp'
      have hne : ¬ bp.conversation_id = bp'.conversation_id := by
        rw [List.map_cons, List.nodup_cons] at hnd
        intro he
        exact hnd.1 (he ▸ List.mem_map.mpr ⟨bp', hbp', rfl⟩)
      rw [pyDictGet_append_none (habs bp' (by simp [hbp']))]
      simp [pyDictGet, hne]
    have hkabs' : ∀ bp' ∈ rest, pyDictGet (genCacheKey ctx bp')
        (st.cache ++ [(genCacheKey ctx bp, ctx.llm ctx.model (ctx.build_prompt bp)
          ctx.system_prompt bp.generation_seed)]) = none := by
      intro bp' hbp'
      have hne : ¬ genCacheKey ctx bp = genCacheKey ctx bp' := by
        rw [List.map_cons, List.nodup_cons] at hknd
        intro he
        exact hknd.1 (he ▸ List.mem_map.mpr ⟨bp', hbp', rfl⟩)
      rw [pyDictGet_append_none (hkabs bp' (by simp [hbp']))]
      simp [pyDictGet, hne]
    obtain ⟨hcalls, hbyid, tl, hevents⟩ := ih
      { file := st.file ++ [artifactOf bp (ctx.llm ctx.model (ctx.build_prompt bp)
          ctx.system_prompt bp.generation_seed)]
        manifest := some (build_dataset_manifest (orderedConversations blueprints
          (st.conversations_by_id ++ [(bp.conversation_id,
            artifactOf bp (ctx.llm ctx.model (ctx.build_prompt bp) ctx.system_prompt
              bp.generation_seed))])) seed language ctx.model output_path)
        conversations_by_id := st.conversations_by_id ++ [(bp.conversation_id,
          artifactOf bp (ctx.llm ctx.model (ctx.build_prompt bp) ctx.system_prompt
            bp.generation_seed))]
        cache := st.cache ++ [(genCacheKey ctx bp, ctx.llm ctx.model
          (ctx.build_prompt bp) ctx.system_prompt bp.generation_seed)]
        llm_calls := st.llm_calls + 1
        events := st.events ++ [(st.processed + 1, total, bp.conversation_id,
          "generated")]
        processed := st.processed + 1 }
      hnd' habs' hknd' hkabs'
    refine ⟨?_, ?_, ?_⟩
    · rw [hcalls]
      simp
      omega
    · rw [hbyid]
      simp
    · exact ⟨(st.processed + 1, total, bp.conversation_id, "generated") :: tl,
        by rw [hevents]; simp⟩

theorem pyDictGet_mem {α} {k : String} {v : α} :
    ∀ {d : List (String × α)}, pyDictGet k d = some v → (k, v) ∈ d := by
  intro d
  induction d with
  | nil => intro h; simp [pyDictGet] at h
  | cons p rest ih =>
    obtain ⟨k', v'⟩ := p
    intro h
    by_cases hk : k' = k
    · subst hk
      simp [pyDictGet] at h
      simp [h]
    · simp [pyDictGet, hk] at h
      simp [ih h]

theorem filterMap_get_map_id :
    ∀ (bps : List ScenarioBlueprint) (d : List (String × ConversationArtifact)),
      (∀ bp ∈ bps, ∃ a, pyDictGet bp.conversation_id d = some a ∧
        a.conversation_id = bp.conversation_id) →
      (bps.filterMap (fun bp => pyDictGet bp.conversation_id d)).map
          (fun c => c.conversation_id)
        = bps.map (fun bp => bp.conversation_id) := by
  intro bps d
  induction bps with
  | nil => intro _; rfl
  | cons bp rest ih =>
    intro hall
    obtain ⟨a, ha, haid⟩ := hall bp (by simp)
    rw [List.filterMap_cons, ha]
    simp only [List.map_cons, haid]
    rw [ih (fun bp' hbp' => hall bp' (by simp [hbp']))]

/-- The generator run of claim C1: `start_from = 0`, `resume_from_cache`,
no `force_refresh`, empty replay cache, and an output holding exactly the
first `N` planned items. -/
theorem generateRun_resume_spec
    (ctx : GenCtx) (blueprints : List ScenarioBlueprint) (seed : Int)
    (language output_path : String) (existing : List ConversationArtifact)
    (N : Nat) (manifest0 : Option DatasetManifest) (st : GenState)
    (hN : N ≤ blueprints.length)
    (hids : (blueprints.map (fun bp => bp.conversation_id)).Nodup)
    (hkeys : (blueprints.map (genCacheKey ctx)).Nodup)
    (hex : existing.map (fun c => c.conversation_id)
      = (blueprints.take N).map (fun bp => bp.conversation_id))
    (hrun : generateRun ctx blueprints seed language output_path 0 true false existing
      manifest0 [] = Except.ok st) :
    st.llm_calls = blueprints.length - N ∧
    st.events.take N = ((blueprints.take N).enum).map
      (fun p => (p.1 + 1, blueprints.length, p.2.conversation_id, "reused-output")) ∧
    st.file.map (fun c => c.conversation_id)
      = blueprints.map (fun bp => bp.conversation_id) := by
  have hexnd : (existing.map (fun c => c.conversation_id)).Nodup := by
    rw [hex, List.map_take]
    exact (List.take_sublist _ _).nodup hids
  have hmem : ∀ c ∈ existing, c.conversation_id
      ∈ blueprints.map (fun bp => bp.conversation_id) := by
    intro c hc
    have h1 : c.conversation_id ∈ existing.map (fun c => c.conversation_id) :=
      List.mem_map.mpr ⟨c, hc, rfl⟩
    rw [hex, List.map_take] at h1
    exact List.take_subset _ _ h1
  have hdisj : ∀ k, k ∈ (blueprints.map (fun bp => bp.conversation_id)).drop N →
      k ∉ (blueprints.map (fun bp => bp.conversation_id)).take N := by
    have hnd := hids
    rw [← List.take_append_drop N (blueprints.map (fun bp => bp.conversation_id))] at hnd
    have hd := (List.nodup_append.mp hnd).2.2
    intro k hk hktake
    exact hd hktake hk
  have hfiltered : existing.foldl (fun d c =>
      if c.conversation_id ∈ blueprints.map (fun bp => bp.conversation_id) then
        pyDictInsert c.conversation_id c d else d) []
      = existing.map (fun c => (c.conversation_id, c)) := by
    rw [buildFiltered_all_fresh _ existing [] hmem (fun c _ => rfl) hexnd]
    simp
  have hkeysfst : (existing.map (fun c => (c.conversation_id, c))).map Prod.fst
      = existing.map (fun c => c.conversation_id) := by
    simp
  have hnormal : (blueprints.map (fun bp => bp.conversation_id)).filterMap
      (fun k => pyDictGet k (existing.map (fun c => (c.conversation_id, c))))
      = existing := by
    have hsplit : blueprints.map (fun bp => bp.conversation_id)
        = existing.map (fun c => c.conversation_id)
          ++ (blueprints.map (fun bp => bp.conversation_id)).drop N := by
      rw [hex, List.map_take]
      exact (List.take_append_drop N _).symm
    rw [hsplit, List.filterMap_append, filterMap_get_self existing hexnd]
    rw [filterMap_get_empty _ _ ?_, List.append_nil]
    intro k hk
    apply pyDictGet_none_of_not_mem
    rw [hkeysfst, hex, List.map_take]
    exact hdisj k hk
  unfold generateRun at hrun
  rcases Nat.eq_zero_or_pos blueprints.length with hM0 | hM0
  · rw [if_pos (by omega)] at hrun
    exact absurd hrun (by simp)
  rw [if_neg (by omega), List.drop_zero] at hrun
  unfold loadExistingConversations at hrun
  simp only [Bool.false_eq_true, Bool.not_true, or_self, if_false, ite_false, reduceIte,
    hfiltered, hnormal] at hrun
  have hsplitfold : ∀ (f : GenState → ScenarioBlueprint → GenState) (s : GenState),
      List.foldl f s blueprints
        = List.foldl f (List.foldl f s (blueprints.take N)) (blueprints.drop N) := by
    intro f s
    conv_lhs => rw [← List.take_append_drop N blueprints]
    rw [List.foldl_append]
  rw [hsplitfold] at hrun
  have hphase1 := genLoop_reused_phase ctx blueprints seed language output_path
    (blueprints.length - 0) (blueprints.take N)
    { file := existing, manifest := manifest0,
      conversations_by_id := existing.map (fun c => (c.conversation_id, c)),
      cache := [], llm_calls := 0, events := [], processed := 0 }
    (by
      intro bp hbp
      apply pyDictGet_isSome_of_mem
      show bp.conversation_id ∈ (existing.map (fun c => (c.conversation_id, c))).map Prod.fst
      rw [hkeysfst, hex]
      exact List.mem_map.mpr ⟨bp, hbp, rfl⟩)
  have hdropnd : ((blueprints.drop N).map (fun bp => bp.conversation_id)).Nodup := by
    rw [List.map_drop]
    exact (List.drop_sublist _ _).nodup hids
  have hdropknd : ((blueprints.drop N).map (genCacheKey ctx)).Nodup := by
    rw [List.map_drop]
    exact (List.drop_sublist _ _).nodup hkeys
  obtain ⟨hcalls, hbyid, tl, hevents⟩ :=
    genLoop_fresh_phase ctx blueprints seed language output_path (blueprints.length - 0)
      (blueprints.drop N)
      (List.foldl (genStep ctx blueprints seed language output_path true false
        (blueprints.length - 0))
        { file := existing, manifest := manifest0,
          conversations_by_id := existing.map (fun c => (c.conversation_id, c)),
          cache := [], llm_calls := 0, events := [], processed := 0 }
        (blueprints.take N))
      hdropnd
      (by
        intro bp hbp
        rw [hphase1]
        apply pyDictGet_none_of_not_mem
        rw [hkeysfst, hex, List.map_take]
        apply hdisj
        rw [← List.map_drop]
        exact List.mem_map.mpr ⟨bp, hbp, rfl⟩)
      hdropknd
      (by
        intro bp hbp
        rw [hphase1]
        rfl)
  replace hrun := (Except.ok.injEq _ _).mp hrun
  subst hrun
  have htakelen : (blueprints.take N).length = N := by
    rw [List.length_take]
    omega
  have hwf : ∀ p ∈ (existing.map (fun c => (c.conversation_id, c)))
      ++ (blueprints.drop N).map (fun bp => (bp.conversation_id,
        artifactOf bp (ctx.llm ctx.model (ctx.build_prompt bp) ctx.system_prompt
          bp.generation_seed))), p.2.conversation_id = p.1 := by
    intro p hp
    rcases List.mem_append.mp hp with hp | hp
    · obtain ⟨c, _, rfl⟩ := List.mem_map.mp hp
      rfl
    · obtain ⟨bp, _, rfl⟩ := List.mem_map.mp hp
      rfl
  refine ⟨?_, ?_, ?_⟩
  · show (List.foldl (genStep ctx blueprints seed language output_path true false
        (blueprints.length - 0)) _ (blueprints.drop N)).llm_calls = blueprints.length - N
    rw [hcalls, hphase1]
    simp
  · show (List.foldl (genStep ctx blueprints seed language output_path true false
        (blueprints.length - 0)) _ (blueprints.drop N)).events.take N = _
    rw [hevents, hphase1]
    simp [List.take_left', htakelen, List.enum]
  · show (orderedConversations blueprints (List.foldl (genStep ctx blueprints seed
        language output_path true false (blueprints.length - 0)) _
        (blueprints.drop N)).conversations_by_id).map (fun c => c.conversation_id) = _
    rw [hbyid, hphase1]
    apply filterMap_get_map_id
    intro bp hbp
    have hmemk : bp.conversation_id ∈ ((existing.map (fun c => (c.conversation_id, c)))
        ++ (blueprints.drop N).map (fun bp => (bp.conversation_id,
          artifactOf bp (ctx.llm ctx.model (ctx.build_prompt bp) ctx.system_prompt
            bp.generation_seed)))).map Prod.fst := by
      rw [List.map_append, hkeysfst, hex]
      rw [List.map_map]
      have : ((blueprints.drop N).map ((fun p => p.1) ∘ (fun bp =>
          (bp.conversation_id, artifactOf bp (ctx.llm ctx.model (ctx.build_prompt bp)
            ctx.system_prompt bp.generation_seed))))) =
          (blueprints.drop N).map (fun bp => bp.conversation_id) := rfl
      rw [this, List.map_take, List.map_drop, List.take_append_drop]
      exact List.mem_map.mpr ⟨bp, hbp, rfl⟩
    obtain ⟨a, ha⟩ := Option.isSome_iff_exists.mp (pyDictGet_isSome_of_mem hmemk)
    exact ⟨a, ha, hwf _ (pyDictGet_mem ha)⟩

/-! ### Startup characterization for resumed evaluator runs -/

theorem buildFilteredRecords_all_fresh (ids : List String) :
    ∀ (rs : List SupportEvaluationRecord) (d : List (String × SupportEvaluationRecord)),
      (∀ r ∈ rs, r.conversation_id ∈ ids) →
      (∀ r ∈ rs, pyDictGet r.conversation_id d = none) →
      ((rs.map (fun r => r.conversation_id)).Nodup) →
      rs.foldl (fun d r =>
          if r.conversation_id ∈ ids then pyDictInsert r.conversation_id r d else d) d
        = d ++ rs.map (fun r => (r.conversation_id, r)) := by
  intro rs
  induction rs with
  | nil => intro d _ _ _; simp
  | cons r rest ih =>
    intro d hmem habs hnd
    rw [List.foldl_cons, if_pos (hmem r (by simp))]
    rw [pyDictInsert_absent (habs r (by simp))]
    rw [ih (d ++ [(r.conversation_id, r)])
      (fun r' hr' => hmem r' (by simp [hr']))
      ?_ (by simpa using hnd.of_cons)]
    · simp
    · intro r' hr'
      have hne : r'.conversation_id ≠ r.conversation_id := by
        intro he
        rw [List.map_cons, List.nodup_cons] at hnd
        exact hnd.1 (he ▸ (List.mem_map.mpr ⟨r', hr', rfl⟩))
      rw [pyDictGet_append_none (habs r' (by simp [hr']))]
      simp [pyDictGet, hne]
      intro hc
      exact absurd hc.symm hne

theorem filterMapRecords_get_self :
    ∀ (rs : List SupportEvaluationRecord),
      ((rs.map (fun r => r.conversation_id)).Nodup) →
      (rs.map (fun r => r.conversation_id)).filterMap
          (fun k => pyDictGet k (rs.map (fun r => (r.conversation_id, r)))) = rs := by
  intro rs
  induction rs with
  | nil => simp
  | cons r rest ih =>
    intro hnd
    rw [List.map_cons, List.map_cons, List.filterMap_cons]
    have hhead : pyDictGet r.conversation_id
        ((r.conversation_id, r) :: rest.map (fun r => (r.conversation_id, r)))
        = some r := by
      simp [pyDictGet]
    rw [hhead]
    have hnotin : r.conversation_id ∉ rest.map (fun r => r.conversation_id) := by
      rw [List.map_cons, List.nodup_cons] at hnd
      exact hnd.1
    have hcong : ∀ k ∈ rest.map (fun r => r.conversation_id),
        pyDictGet k ((r.conversation_id, r) :: rest.map (fun r => (r.conversation_id, r)))
          = pyDictGet k (rest.map (fun r => (r.conversation_id, r))) := by
      intro k hk
      have : ¬ r.conversation_id = k := fun he => hnotin (he ▸ hk)
      simp [pyDictGet, this]
    rw [List.filterMap_congr hcong]
    rw [ih (by simpa using hnd.of_cons)]

theorem filterMapRecords_get_map_id :
    ∀ (cs : List ConversationArtifact) (d : List (String × SupportEvaluationRecord)),
      (∀ c ∈ cs, ∃ a, pyDictGet c.conversation_id d = some a ∧
        a.conversation_id = c.conversation_id) →
      (cs.filterMap (fun c => pyDictGet c.conversation_id d)).map
          (fun r => r.conversation_id)
        = cs.map (fun c => c.conversation_id) := by
  intro cs d
  induction cs with
  | nil => intro _; rfl
  | cons c rest ih =>
    intro hall
    obtain ⟨a, ha, haid⟩ := hall c (by simp)
    rw [List.filterMap_cons, ha]
    simp only [List.map_cons, haid]
    rw [ih (fun c' hc' => hall c' (by simp [hc']))]

theorem enumFrom_map_snd_field (n : Nat) (l : List ConversationArtifact) :
    (List.enumFrom n l).map (fun it => it.2.conversation_id)
      = l.map (fun c => c.conversation_id) := by
  induction l generalizing n with
  | nil => rfl
  | cons c cs ih => simp [List.enumFrom_cons, ih (n + 1)]

theorem enumFrom_enumFrom {α} :
    ∀ (l : List α) (n : Nat),
      List.enumFrom n (List.enumFrom n l) = (List.enumFrom n l).map (fun p => (p.1, p)) := by
  intro l
  induction l with
  | nil => intro n; rfl
  | cons a as ih =>
    intro n
    simp [List.enumFrom_cons, ih (n + 1)]

/-! ### The evaluator loop, phase by phase -/

theorem evalLoop_reused_phase (ctx : EvalCtx) (conversations : List ConversationArtifact)
    (seed : Int) (input_path output_path : String) (total : Nat) :
    ∀ (l : List (Nat × ConversationArtifact)) (st : EvalState),
      (∀ it ∈ l, (pyDictGet it.2.conversation_id st.records_by_id).isSome) →
      l.foldl (evalStep ctx conversations seed input_path output_path true false total) st
        = { st with
            processed := st.processed + l.length
            events := st.events ++ (l.enumFrom st.processed).map
              (fun p => (p.1 + 1, total, p.2.2.conversation_id, "reused-output")) } := by
  intro l
  induction l with
  | nil => intro st _; simp
  | cons it rest ih =>
    intro st hsome
    rw [List.foldl_cons]
    have hit := hsome it (by simp)
    have hstep : evalStep ctx conversations seed input_path output_path true false total st it
        = { st with
            processed := st.processed + 1
            events := st.events ++ [(st.processed + 1, total, it.2.conversation_id,
              "reused-output")] } := by
      unfold evalStep
      rw [if_pos ⟨rfl, hit⟩]
    rw [hstep]
    rw [ih { st with
        processed := st.processed + 1
        events := st.events ++ [(st.processed + 1, total, it.2.conversation_id,
          "reused-output")] }
      (fun it' hit' => hsome it' (by simp [hit']))]
    simp [List.enumFrom_cons]
    omega

theorem evalLoop_fresh_phase (ctx : EvalCtx) (conversations : List ConversationArtifact)
    (seed : Int) (input_path output_path : String) (total : Nat) :
    ∀ (l : List (Nat × ConversationArtifact)) (st : EvalState),
      ((l.map (fun it => it.2.conversation_id)).Nodup) →
      (∀ it ∈ l, pyDictGet it.2.conversation_id st.records_by_id = none) →
      ((l.map (fun it => evalCacheKey ctx seed it.1 it.2)).Nodup) →
      (∀ it ∈ l, pyDictGet (evalCacheKey ctx seed it.1 it.2) st.cache = none) →
      (l.foldl (evalStep ctx conversations seed input_path output_path true false total)
            st).llm_calls
          = st.llm_calls + l.length ∧
      (l.foldl (evalStep ctx conversations seed input_path output_path true false total)
            st).records_by_id
          = st.records_by_id ++ l.map (fun it => (it.2.conversation_id,
              SupportEvaluationRecord.from_evaluation it.2.conversation_id
                (ctx.llm ctx.model (ctx.build_prompt it.2) ctx.system_prompt
                  (seed + it.1)))) ∧
      ∃ tl, (l.foldl (evalStep ctx conversations seed input_path output_path true false total)
            st).events = st.events ++ tl := by
  intro l
  induction l with
  | nil => intro st _ _ _ _; exact ⟨by simp, by simp, [], by simp⟩
  | cons it rest ih =>
    intro st hnd habs hknd hkabs
    rw [List.foldl_cons]
    have hget := habs it (by simp)
    have hkey := hkabs it (by simp)
    have hstep : evalStep ctx conversations seed input_path output_path true false total st it
        = { report := some (build_evaluation_report input_path output_path ctx.model
              (orderedRecords conversations (st.records_by_id ++ [(it.2.conversation_id,
                SupportEvaluationRecord.from_evaluation it.2.conversation_id
                  (ctx.llm ctx.model (ctx.build_prompt it.2) ctx.system_prompt
                    (seed + it.1)))])))
            records_by_id := st.records_by_id ++ [(it.2.conversation_id,
              SupportEvaluationRecord.from_evaluation it.2.conversation_id
                (ctx.llm ctx.model (ctx.build_prompt it.2) ctx.system_prompt
                  (seed + it.1)))]
            cache := st.cache ++ [(evalCacheKey ctx seed it.1 it.2,
              ctx.llm ctx.model (ctx.build_prompt it.2) ctx.system_prompt (seed + it.1))]
            llm_calls := st.llm_calls + 1
            events := st.events ++ [(st.processed + 1, total, it.2.conversation_id,
              "generated")]
            processed := st.processed + 1 } := by
      unfold evalStep
      rw [if_neg (by simp [hget])]
      simp only [Bool.not_false, and_true, if_true, hkey, reduceIte]
      rw [pyDictInsert_absent hget, pyDictInsert_absent hkey]
      rfl
    rw [hstep]
    have hnd' : ((rest.map (fun it => it.2.conversation_id)).Nodup) := by
      simpa using hnd.of_cons
    have hknd' : ((rest.map (fun it => evalCacheKey ctx seed it.1 it.2)).Nodup) := by
      simpa using hknd.of_cons
    have habs' : ∀ it' ∈ rest, pyDictGet it'.2.conversation_id
        (st.records_by_id ++ [(it.2.conversation_id,
          SupportEvaluationRecord.from_evaluation it.2.conversation_id
            (ctx.llm ctx.model (ctx.build_prompt it.2) ctx.system_prompt
              (seed + it.1)))]) = none := by
      intro it' hit'
      have hne : ¬ it.2.conversation_id = it'.2.conversation_id := by
        rw [List.map_cons, List.nodup_cons] at hnd
        intro he
        exact hnd.1 (he ▸ List.mem_map.mpr ⟨it', hit', rfl⟩)
      rw [pyDictGet_append_none (habs it' (by simp [hit']))]
      simp [pyDictGet, hne]
    have hkabs' : ∀ it' ∈ rest, pyDictGet (evalCacheKey ctx seed it'.1 it'.2)
        (st.cache ++ [(evalCacheKey ctx seed it.1 it.2,
          ctx.llm ctx.model (ctx.build_prompt it.2) ctx.system_prompt (seed + it.1))])
        = none := by
      intro it' hit'
      have hne : ¬ evalCacheKey ctx seed it.1 it.2 = evalCacheKey ctx seed it'.1 it'.2 := by
        rw [List.map_cons, List.nodup_cons] at hknd
        intro he
        exact hknd.1 (he ▸ List.mem_map.mpr ⟨it', hit', rfl⟩)
      rw [pyDictGet_append_none (hkabs it' (by simp [hit']))]
      simp [pyDictGet, hne]
    obtain ⟨hcalls, hbyid, tl, hevents⟩ := ih
      { report := some (build_evaluation_report input_path output_path ctx.model
          (orderedRecords conversations (st.records_by_id ++ [(it.2.conversation_id,
            SupportEvaluationRecord.from_evaluation it.2.conversation_id
              (ctx.llm ctx.model (ctx.build_prompt it.2) ctx.system_prompt
                (seed + it.1)))])))
        records_by_id := st.records_by_id ++ [(it.2.conversation_id,
          SupportEvaluationRecord.from_evaluation it.2.conversation_id
            (ctx.llm ctx.model (ctx.build_prompt it.2) ctx.system_prompt
              (seed + it.1)))]
        cache := st.cache ++ [(evalCacheKey ctx seed it.1 it.2,
          ctx.llm ctx.model (ctx.build_prompt it.2) ctx.system_prompt (seed + it.1))]
        llm_calls := st.llm_calls + 1
        events := st.events ++ [(st.processed + 1, total, it.2.conversation_id,
          "generated")]
        processed := st.processed + 1 }
      hnd' habs' hknd' hkabs'
    refine ⟨?_, ?_, ?_⟩
    · rw [hcalls]
      simp
      omega
    · rw [hbyid]
      simp
    · exact ⟨(st.processed + 1, total, it.2.conversation_id, "generated") :: tl,
        by rw [hevents]; simp⟩

/-- The evaluator run of claim C1: `start_from = 0`, `resume`, no
`force`, empty replay cache, and an existing report holding exactly the
first `N` planned items' records. -/
theorem evaluateRun_resume_spec
    (ctx : EvalCtx) (conversations : List ConversationArtifact) (seed : Int)
    (input_path output_path : String) (rep0 : EvaluationReport)
    (N : Nat) (st : EvalState)
    (hN : N ≤ conversations.length)
    (hids : (conversations.map (fun c => c.conversation_id)).Nodup)
    (hkeys : ((conversations.enumFrom 0).map
      (fun it => evalCacheKey ctx seed it.1 it.2)).Nodup)
    (hex : rep0.records.map (fun r => r.conversation_id)
      = (conversations.take N).map (fun c => c.conversation_id))
    (hrun : evaluateRun ctx conversations seed input_path output_path 0 true false
      (some rep0) [] = Except.ok st) :
    st.llm_calls = conversations.length - N ∧
    st.events.take N = ((conversations.take N).enum).map
      (fun p => (p.1 + 1, conversations.length, p.2.conversation_id, "reused-output")) ∧
    ∃ rep, st.report = some rep ∧
      rep.records.map (fun r => r.conversation_id)
        = conversations.map (fun c => c.conversation_id) := by
  by_cases hnil : conversations = []
  · subst hnil
    unfold evaluateRun at hrun
    simp only [List.isEmpty_nil, if_true, reduceIte] at hrun
    replace hrun := (Except.ok.injEq _ _).mp hrun
    subst hrun
    refine ⟨by simp, by simp, build_evaluation_report input_path output_path ctx.model [],
      rfl, rfl⟩
  have hM0 : 0 < conversations.length := List.length_pos.mpr hnil
  have htakelen : (conversations.take N).length = N := by
    rw [List.length_take]
    omega
  have hexnd : (rep0.records.map (fun r => r.conversation_id)).Nodup := by
    rw [hex, List.map_take]
    exact (List.take_sublist _ _).nodup hids
  have hmem : ∀ r ∈ rep0.records, r.conversation_id
      ∈ conversations.map (fun c => c.conversation_id) := by
    intro r hr
    have h1 : r.conversation_id ∈ rep0.records.map (fun r => r.conversation_id) :=
      List.mem_map.mpr ⟨r, hr, rfl⟩
    rw [hex, List.map_take] at h1
    exact List.take_subset _ _ h1
  have hdisj : ∀ k, k ∈ (conversations.map (fun c => c.conversation_id)).drop N →
      k ∉ (conversations.map (fun c => c.conversation_id)).take N := by
    have hnd := hids
    rw [← List.take_append_drop N (conversations.map (fun c => c.conversation_id))] at hnd
    have hd := (List.nodup_append.mp hnd).2.2
    intro k hk hktake
    exact hd hktake hk
  have hfiltered : rep0.records.foldl (fun d r =>
      if r.conversation_id ∈ conversations.map (fun c => c.conversation_id) then
        pyDictInsert r.conversation_id r d else d) []
      = rep0.records.map (fun r => (r.conversation_id, r)) := by
    rw [buildFilteredRecords_all_fresh _ rep0.records [] hmem (fun r _ => rfl) hexnd]
    simp
  have hkeysfst : (rep0.records.map (fun r => (r.conversation_id, r))).map Prod.fst
      = rep0.records.map (fun r => r.conversation_id) := by
    simp
  have hnormal : (conversations.map (fun c => c.conversation_id)).filterMap
      (fun k => pyDictGet k (rep0.records.map (fun r => (r.conversation_id, r))))
      = rep0.records := by
    have hsplit : conversations.map (fun c => c.conversation_id)
        = rep0.records.map (fun r => r.conversation_id)
          ++ (conversations.map (fun c => c.conversation_id)).drop N := by
      rw [hex, List.map_take]
      exact (List.take_append_drop N _).symm
    rw [hsplit, List.filterMap_append, filterMapRecords_get_self rep0.records hexnd]
    rw [filterMap_get_empty _ _ ?_, List.append_nil]
    intro k hk
    apply pyDictGet_none_of_not_mem
    rw [hkeysfst, hex, List.map_take]
    exact hdisj k hk
  unfold evaluateRun at hrun
  rw [if_neg (by simp [List.isEmpty_iff, hnil]), if_neg (by omega), List.drop_zero] at hrun
  unfold loadExistingRecords at hrun
  simp only [Bool.false_eq_true, Bool.not_true, or_self, if_false, ite_false, reduceIte,
    hfiltered, hnormal] at hrun
  have hsplitfold : ∀ (f : EvalState → Nat × ConversationArtifact → EvalState)
      (s : EvalState),
      List.foldl f s (conversations.enumFrom 0)
        = List.foldl f (List.foldl f s ((conversations.take N).enumFrom 0))
            ((conversations.drop N).enumFrom N) := by
    intro f s
    conv_lhs => rw [← List.take_append_drop N conversations]
    rw [List.enumFrom_append, Nat.zero_add, htakelen, List.foldl_append]
  rw [hsplitfold] at hrun
  have hphase1 := evalLoop_reused_phase ctx conversations seed input_path output_path
    (conversations.length - 0) ((conversations.take N).enumFrom 0)
    { report := some (build_evaluation_report input_path output_path ctx.model rep0.records)
      records_by_id := rep0.records.map (fun r => (r.conversation_id, r))
      cache := [], llm_calls := 0, events := [], processed := 0 }
    (by
      intro it hit
      apply pyDictGet_isSome_of_mem
      show it.2.conversation_id
        ∈ (rep0.records.map (fun r => (r.conversation_id, r))).map Prod.fst
      rw [hkeysfst, hex]
      have h2 : it.2 ∈ conversations.take N := by
        have h3 := List.enumFrom_map_snd 0 (conversations.take N)
        exact h3 ▸ List.mem_map.mpr ⟨it, hit, rfl⟩
      exact List.mem_map.mpr ⟨it.2, h2, rfl⟩)
  have hdropnd : (((conversations.drop N).enumFrom N).map
      (fun it => it.2.conversation_id)).Nodup := by
    rw [enumFrom_map_snd_field, List.map_drop]
    exact (List.drop_sublist _ _).nodup hids
  have hsplitkeys : (conversations.enumFrom 0).map
      (fun it => evalCacheKey ctx seed it.1 it.2)
      = ((conversations.take N).enumFrom 0).map
          (fun it => evalCacheKey ctx seed it.1 it.2)
        ++ ((conversations.drop N).enumFrom N).map
          (fun it => evalCacheKey ctx seed it.1 it.2) := by
    conv_lhs => rw [← List.take_append_drop N conversations]
    rw [List.enumFrom_append, Nat.zero_add, htakelen, List.map_append]
  have hdropknd : (((conversations.drop N).enumFrom N).map
      (fun it => evalCacheKey ctx seed it.1 it.2)).Nodup := by
    have hk2 := hkeys
    rw [hsplitkeys] at hk2
    exact (List.nodup_append.mp hk2).2.1
  obtain ⟨hcalls, hbyid, tl, hevents⟩ :=
    evalLoop_fresh_phase ctx conversations seed input_path output_path
      (conversations.length - 0) ((conversations.drop N).enumFrom N)
      (List.foldl (evalStep ctx conversations seed input_path output_path true false
        (conversations.length - 0))
        { report := some (build_evaluation_report input_path output_path ctx.model
            rep0.records)
          records_by_id := rep0.records.map (fun r => (r.conversation_id, r))
          cache := [], llm_calls := 0, events := [], processed := 0 }
        ((conversations.take N).enumFrom 0))
      hdropnd
      (by
        intro it hit
        rw [hphase1]
        apply pyDictGet_none_of_not_mem
        rw [hkeysfst, hex, List.map_take]
        apply hdisj
        rw [← List.map_drop, ← enumFrom_map_snd_field N]
        exact List.mem_map.mpr ⟨it, hit, rfl⟩)
      hdropknd
      (by
        intro it hit
        rw [hphase1]
        rfl)
  replace hrun := (Except.ok.injEq _ _).mp hrun
  subst hrun
  have hwf : ∀ p ∈ (rep0.records.map (fun r => (r.conversation_id, r)))
      ++ ((conversations.drop N).enumFrom N).map (fun it => (it.2.conversation_id,
        SupportEvaluationRecord.from_evaluation it.2.conversation_id
          (ctx.llm ctx.model (ctx.build_prompt it.2) ctx.system_prompt (seed + it.1)))),
      p.2.conversation_id = p.1 := by
    intro p hp
    rcases List.mem_append.mp hp with hp | hp
    · obtain ⟨r, _, rfl⟩ := List.mem_map.mp hp
      rfl
    · obtain ⟨it, _, rfl⟩ := List.mem_map.mp hp
      rfl
  refine ⟨?_, ?_, ?_⟩
  · show (List.foldl (evalStep ctx conversations seed input_path output_path true false
        (conversations.length - 0)) _ ((conversations.drop N).enumFrom N)).llm_calls
      = conversations.length - N
    rw [hcalls, hphase1]
    simp [List.enumFrom_length]
  · show (List.foldl (evalStep ctx conversations seed input_path output_path true false
        (conversations.length - 0)) _ ((conversations.drop N).enumFrom N)).events.take N
      = _
    rw [hevents, hphase1]
    simp [List.take_left', htakelen, List.enumFrom_length, enumFrom_enumFrom, List.enum]
  · refine ⟨_, rfl, ?_⟩
    show (build_evaluation_report input_path output_path ctx.model
        (orderedRecords conversations (List.foldl (evalStep ctx conversations seed
          input_path output_path true false (conversations.length - 0)) _
          ((conversations.drop N).enumFrom N)).records_by_id)).records.map
        (fun r => r.conversation_id)
      = conversations.map (fun c => c.conversation_id)
    have hrecs : ∀ rs, (build_evaluation_report input_path output_path ctx.model
        rs).records = rs := fun rs => rfl
    rw [hrecs]
    unfold orderedRecords
    rw [hbyid, hphase1]
    apply filterMapRecords_get_map_id
    intro c hc
    have hmemk : c.conversation_id ∈ ((rep0.records.map (fun r => (r.conversation_id, r)))
        ++ ((conversations.drop N).enumFrom N).map (fun it => (it.2.conversation_id,
          SupportEvaluationRecord.from_evaluation it.2.conversation_id
            (ctx.llm ctx.model (ctx.build_prompt it.2) ctx.system_prompt
              (seed + it.1))))).map Prod.fst := by
      rw [List.map_append, hkeysfst, hex]
      rw [List.map_map]
      have h4 : (((conversations.drop N).enumFrom N).map ((fun p => p.1)
          ∘ (fun it => (it.2.conversation_id,
            SupportEvaluationRecord.from_evaluation it.2.conversation_id
              (ctx.llm ctx.model (ctx.build_prompt it.2) ctx.system_prompt
                (seed + it.1))))))
          = ((conversations.drop N).enumFrom N).map (fun it => it.2.conversation_id) := rfl
      rw [h4, enumFrom_map_snd_field, List.map_take, List.map_drop,
        List.take_append_drop]
      exact List.mem_map.mpr ⟨c, hc, rfl⟩
    obtain ⟨a, ha⟩ := Option.isSome_iff_exists.mp (pyDictGet_isSome_of_mem hmemk)
    exact ⟨a, ha, hwf _ (pyDictGet_mem ha)⟩


/-! ### Claim C1 -/

def c1Blueprints : List ScenarioBlueprint :=
  [sampleBlueprint "c1" 7, sampleBlueprint "c2" 8]

def c1Existing : List ConversationArtifact :=
  [artifactOf (sampleBlueprint "c1" 7) sampleDraft]

def c1Conversations : List ConversationArtifact :=
  [artifactOf (sampleBlueprint "c1" 7) sampleDraft,
   artifactOf (sampleBlueprint "c2" 8) sampleDraft]

def c1Report0 : EvaluationReport :=
  build_evaluation_report "in.jsonl" "report.json" "m"
    [SupportEvaluationRecord.from_evaluation "c1" sampleEvaluation]

def c1GenResult : GenState :=
  match generateRun sampleGenCtx c1Blueprints 0 "uk" "out.jsonl" 0 true false
      c1Existing none [] with
  | Except.ok s => s
  | Except.error _ =>
      { file := [], manifest := none, conversations_by_id := [], cache := [],
        llm_calls := 0, events := [], processed := 0 }

def c1EvalResult : EvalState :=
  match evaluateRun sampleEvalCtx c1Conversations 0 "in.jsonl" "report.json" 0 true false
      (some c1Report0) [] with
  | Except.ok s => s
  | Except.error _ =>
      { report := none, records_by_id := [], cache := [], llm_calls := 0, events := [],
        processed := 0 }

/-- **C1**: a run with `start_from = 0`, `resume_from_cache = true`,
`force_refresh = false`, an empty replay cache, and existing durable
output holding exactly the first `N` of the `M` planned items makes
exactly `M − N` `generate_structured` calls, reports each of the first
`N` items with status `reused-output`, and ends with all `M` items
present in planned order — for the dataset generator (output file) and
for the evaluator (report records) alike.  The side conditions ask the
planned items' conversation ids and their replay-cache keys to be
pairwise distinct, which holds for factory-produced plans
(`chat_{seed:04d}_{index + 1:03d}` ids, per-item keys). -/
theorem resume_reuses_first_items_and_calls_provider_for_rest :
    (∀ (ctx : GenCtx) (blueprints : List ScenarioBlueprint) (seed : Int)
        (language output_path : String) (existing : List ConversationArtifact)
        (N : Nat) (manifest0 : Option DatasetManifest) (st : GenState),
      N ≤ blueprints.length →
      (blueprints.map (fun bp => bp.conversation_id)).Nodup →
      (blueprints.map (genCacheKey ctx)).Nodup →
      existing.map (fun c => c.conversation_id)
        = (blueprints.take N).map (fun bp => bp.conversation_id) →
      generateRun ctx blueprints seed language output_path 0 true false existing
        manifest0 [] = Except.ok st →
      st.llm_calls = blueprints.length - N ∧
      st.events.take N = ((blueprints.take N).enum).map
        (fun p => (p.1 + 1, blueprints.length, p.2.conversation_id, "reused-output")) ∧
      st.file.map (fun c => c.conversation_id)
        = blueprints.map (fun bp => bp.conversation_id)) ∧
    (∀ (ctx : EvalCtx) (conversations : List ConversationArtifact) (seed : Int)
        (input_path output_path : String) (rep0 : EvaluationReport)
        (N : Nat) (st : EvalState),
      N ≤ conversations.length →
      (conversations.map (fun c => c.conversation_id)).Nodup →
      ((conversations.enumFrom 0).map (fun it => evalCacheKey ctx seed it.1 it.2)).Nodup →
      rep0.records.map (fun r => r.conversation_id)
        = (conversations.take N).map (fun c => c.conversation_id) →
      evaluateRun ctx conversations seed input_path output_path 0 true false
        (some rep0) [] = Except.ok st →
      st.llm_calls = conversations.length - N ∧
      st.events.take N = ((conversations.take N).enum).map
        (fun p => (p.1 + 1, conversations.length, p.2.conversation_id, "reused-output")) ∧
      ∃ rep, st.report = some rep ∧
        rep.records.map (fun r => r.conversation_id)
          = conversations.map (fun c => c.conversation_id)) :=
  ⟨fun ctx blueprints seed language output_path existing N manifest0 st hN hids hkeys
      hex hrun =>
    generateRun_resume_spec ctx blueprints seed language output_path existing N manifest0
      st hN hids hkeys hex hrun,
   fun ctx conversations seed input_path output_path rep0 N st hN hids hkeys hex hrun =>
    evaluateRun_resume_spec ctx conversations seed input_path output_path rep0 N st hN
      hids hkeys hex hrun⟩

/-- Witness for C1: two planned items, one already present (`N = 1`,
`M = 2`), for both orchestrators. -/
theorem resume_reuses_first_items_and_calls_provider_for_rest_witness :
    generateRun sampleGenCtx c1Blueprints 0 "uk" "out.jsonl" 0 true false c1Existing
        none [] = Except.ok c1GenResult ∧
    c1GenResult.llm_calls = 1 ∧
    c1GenResult.events.take 1 = [(1, 2, "c1", "reused-output")] ∧
    c1GenResult.file.map (fun c => c.conversation_id) = ["c1", "c2"] ∧
    evaluateRun sampleEvalCtx c1Conversations 0 "in.jsonl" "report.json" 0 true false
        (some c1Report0) [] = Except.ok c1EvalResult ∧
    c1EvalResult.llm_calls = 1 ∧
    c1EvalResult.events.take 1 = [(1, 2, "c1", "reused-output")] ∧
    c1EvalResult.report.map (fun rep => rep.records.map (fun r => r.conversation_id))
      = some ["c1", "c2"] := by
  have hgrun : generateRun sampleGenCtx c1Blueprints 0 "uk" "out.jsonl" 0 true false
      c1Existing none [] = Except.ok c1GenResult := rfl
  have herun : evaluateRun sampleEvalCtx c1Conversations 0 "in.jsonl" "report.json" 0
      true false (some c1Report0) [] = Except.ok c1EvalResult := rfl
  obtain ⟨hg1, hg2, hg3⟩ :=
    resume_reuses_first_items_and_calls_provider_for_rest.1 sampleGenCtx c1Blueprints 0
      "uk" "out.jsonl" c1Existing 1 none c1GenResult (by decide) (by decide) (by decide)
      (by decide) hgrun
  obtain ⟨he1, he2, he3⟩ :=
    resume_reuses_first_items_and_calls_provider_for_rest.2 sampleEvalCtx c1Conversations
      0 "in.jsonl" "report.json" c1Report0 1 c1EvalResult (by decide) (by decide)
      (by decide) (by decide) herun
  refine ⟨hgrun, ?_, ?_, ?_, herun, ?_, ?_, ?_⟩
  · rw [hg1]; decide
  · rw [hg2]; decide
  · rw [hg3]; decide
  · rw [he1]; decide
  · rw [he2]; decide
  · obtain ⟨rep, hrep, hmap⟩ := he3
    rw [hrep]
    show some (rep.records.map (fun r => r.conversation_id)) = some ["c1", "c2"]
    rw [hmap]
    decide


/-! ### Claim C4: aggregate/manifest consistency with the durable store -/

theorem pyDictGet_split {α} {k : String} {v : α} :
    ∀ {d : List (String × α)}, pyDictGet k d = some v →
      ∃ d1 d2, d = d1 ++ (k, v) :: d2 ∧ k ∉ d1.map Prod.fst := by
  intro d
  induction d with
  | nil => intro h; simp [pyDictGet] at h
  | cons p rest ih =>
    obtain ⟨k', v'⟩ := p
    intro h
    by_cases hk : k' = k
    · subst hk
      simp [pyDictGet] at h
      subst h
      exact ⟨[], rest, rfl, by simp⟩
    · simp [pyDictGet, hk] at h
      obtain ⟨d1, d2, hd, hk1⟩ := ih h
      refine ⟨(k', v') :: d1, d2, by simp [hd], ?_⟩
      intro hmem
      rw [List.map_cons, List.mem_cons] at hmem
      rcases hmem with he | hm
      · exact hk he.symm
      · exact hk1 hm

theorem pyDictGet_skip_middle {α} {k k' : String} {v : α} (hne : k' ≠ k) :
    ∀ (d1 d2 : List (String × α)),
      pyDictGet k' (d1 ++ (k, v) :: d2) = pyDictGet k' (d1 ++ d2) := by
  intro d1
  induction d1 with
  | nil =>
    intro d2
    have h0 : ¬ k = k' := fun he => hne he.symm
    simp [pyDictGet, h0]
  | cons p rest ih =>
    intro d2
    obtain ⟨k0, v0⟩ := p
    by_cases h0 : k0 = k' <;> simp [pyDictGet, h0, ih]

/-- Looking every key of `ids` up in a dict whose keys all lie in `ids`
(all lists duplicate-free) yields a permutation of the dict's values:
`_ordered_conversations` / `_write_report` enumerate exactly the stored
entries, reordered to planned order. -/
theorem filterMap_get_perm_values {α} :
    ∀ (ids : List String) (d : List (String × α)),
      ids.Nodup → (d.map Prod.fst).Nodup →
      (∀ k ∈ d.map Prod.fst, k ∈ ids) →
      (ids.filterMap (fun k => pyDictGet k d)).Perm (d.map Prod.snd) := by
  intro ids
  induction ids with
  | nil =>
    intro d _ _ hsub
    have hd : d.map Prod.fst = [] := List.eq_nil_iff_forall_not_mem.mpr
      (fun k hk => by simpa using hsub k hk)
    have hnil : d = [] := List.map_eq_nil_iff.mp hd
    subst hnil
    simp
  | cons k rest ih =>
    intro d hnd hkd hsub
    rw [List.filterMap_cons]
    cases hget : pyDictGet k d with
    | none =>
      have hknotin : k ∉ d.map Prod.fst := by
        intro hk
        have hs := pyDictGet_isSome_of_mem hk
        rw [hget] at hs
        simp at hs
      have hsub' : ∀ k' ∈ d.map Prod.fst, k' ∈ rest := by
        intro k' hk'
        rcases List.mem_cons.mp (hsub k' hk') with he | hm
        · exact absurd (he ▸ hk') hknotin
        · exact hm
      exact ih d (by simpa using hnd.of_cons) hkd hsub'
    | some v =>
      obtain ⟨d1, d2, hd, hk1⟩ := pyDictGet_split hget
      subst hd
      have hkeys : (d1 ++ (k, v) :: d2).map Prod.fst
          = d1.map Prod.fst ++ k :: d2.map Prod.fst := by simp
      have hkd' := hkd
      rw [hkeys] at hkd'
      have hk2 : k ∉ d2.map Prod.fst :=
        (List.nodup_cons.mp (List.nodup_append.mp hkd').2.1).1
      have hknotrest : k ∉ rest := (List.nodup_cons.mp hnd).1
      have hcong : ∀ k' ∈ rest,
          pyDictGet k' (d1 ++ (k, v) :: d2) = pyDictGet k' (d1 ++ d2) := by
        intro k' hk'
        refine pyDictGet_skip_middle ?_ d1 d2
        intro he
        rw [he] at hk'
        exact hknotrest hk'

      rw [List.filterMap_congr hcong]
      have hkdsub : ((d1 ++ d2).map Prod.fst).Nodup := by
        refine List.Sublist.nodup ?_ hkd
        rw [hkeys, List.map_append]
        exact List.Sublist.append (List.Sublist.refl _) (List.sublist_cons_self _ _)
      have hsub' : ∀ k' ∈ (d1 ++ d2).map Prod.fst, k' ∈ rest := by
        intro k' hk'
        rw [List.map_append] at hk'
        have hkin : k' ∈ (d1 ++ (k, v) :: d2).map Prod.fst := by
          rw [hkeys]
          rcases List.mem_append.mp hk' with h1 | h2
          · exact List.mem_append.mpr (Or.inl h1)
          · exact List.mem_append.mpr (Or.inr (List.mem_cons_of_mem _ h2))
        have hne : k' ≠ k := by
          intro he
          subst he
          rcases List.mem_append.mp hk' with h1 | h2
          · exact hk1 h1
          · exact hk2 h2
        rcases List.mem_cons.mp (hsub k' hkin) with he | hm
        · exact absurd he hne
        · exact hm
      have hperm := ih (d1 ++ d2) (by simpa using hnd.of_cons) hkdsub hsub'
      have hvals : (d1 ++ (k, v) :: d2).map Prod.snd
          = d1.map Prod.snd ++ v :: d2.map Prod.snd := by simp
      rw [hvals]
      refine List.Perm.trans ?_ List.perm_middle.symm
      exact List.Perm.cons v (by simpa using hperm)

/-- `build_dataset_manifest` only counts, so it is invariant under
reordering its input. -/
theorem build_dataset_manifest_perm {l1 l2 : List ConversationArtifact}
    (h : l1.Perm l2) (seed : Int) (language model output_path : String) :
    build_dataset_manifest l1 seed language model output_path
      = build_dataset_manifest l2 seed language model output_path := by
  unfold build_dataset_manifest
  congr 1
  any_goals funext x
  all_goals first
    | exact h.length_eq
    | exact h.countP_eq _

theorem filterMap_get_over_blueprints (bps : List ScenarioBlueprint)
    (d : List (String × ConversationArtifact)) :
    bps.filterMap (fun bp => pyDictGet bp.conversation_id d)
      = (bps.map (fun bp => bp.conversation_id)).filterMap (fun k => pyDictGet k d) := by
  induction bps with
  | nil => rfl
  | cons b bs ih => simp [List.filterMap_cons, List.map_cons, ih]

/-- The generator's in-memory/durable-state invariant: the dict keyed by
conversation id has duplicate-free keys, all planned, and the output
file holds exactly the dict's values (up to order). -/
def genInv (blueprints : List ScenarioBlueprint) (st : GenState) : Prop :=
  (st.conversations_by_id.map Prod.fst).Nodup ∧
  (∀ k ∈ st.conversations_by_id.map Prod.fst,
    k ∈ blueprints.map (fun bp => bp.conversation_id)) ∧
  st.file.Perm (st.conversations_by_id.map Prod.snd)

theorem genStep_fresh_fields (ctx : GenCtx) (blueprints : List ScenarioBlueprint)
    (seed : Int) (language output_path : String) (resume force : Bool) (total : Nat)
    (st : GenState) (bp : ScenarioBlueprint)
    (habs : pyDictGet bp.conversation_id st.conversations_by_id = none) :
    ∃ draft,
      (genStep ctx blueprints seed language output_path resume force total st bp).file
        = st.file ++ [artifactOf bp draft] ∧
      (genStep ctx blueprints seed language output_path resume force total
          st bp).conversations_by_id
        = st.conversations_by_id ++ [(bp.conversation_id, artifactOf bp draft)] ∧
      (genStep ctx blueprints seed language output_path resume force total st bp).manifest
        = some (build_dataset_manifest (orderedConversations blueprints
            (st.conversations_by_id ++ [(bp.conversation_id, artifactOf bp draft)]))
          seed language ctx.model output_path) := by
  unfold genStep
  rw [if_neg (by simp [habs])]
  simp only []
  rw [pyDictInsert_absent habs]
  exact ⟨_, rfl, rfl, rfl⟩

def c4Blueprints : List ScenarioBlueprint :=
  [sampleBlueprint "c1" 7, sampleBlueprint "c2" 8]

def c4Artifact1 : ConversationArtifact :=
  artifactOf (sampleBlueprint "c1" 7) sampleDraft

def c4StaleManifest : DatasetManifest :=
  build_dataset_manifest
    [c4Artifact1, artifactOf (sampleBlueprint "c2" 8) sampleDraft] 0 "uk" "m" "out.jsonl"

def c4State0 : GenState :=
  { file := [c4Artifact1], manifest := some c4StaleManifest,
    conversations_by_id := [("c1", c4Artifact1)], cache := [], llm_calls := 0,
    events := [], processed := 0 }

def c4State1 : GenState :=
  genStep sampleGenCtx c4Blueprints 0 "uk" "out.jsonl" true false 2 c4State0
    (sampleBlueprint "c1" 7)

def c4GenResult : GenState :=
  match generateRun sampleGenCtx c4Blueprints 0 "uk" "out.jsonl" 0 true false
      [c4Artifact1] (some c4StaleManifest) [] with
  | Except.ok s => s
  | Except.error _ =>
      { file := [], manifest := none, conversations_by_id := [], cache := [],
        llm_calls := 0, events := [], processed := 0 }

def c4Conversations : List ConversationArtifact :=
  [c4Artifact1, artifactOf (sampleBlueprint "c2" 8) sampleDraft]

def c4EvalResult : EvalState :=
  match evaluateRun sampleEvalCtx c4Conversations 0 "in.jsonl" "report.json" 0 true false
      none [] with
  | Except.ok s => s
  | Except.error _ =>
      { report := none, records_by_id := [], cache := [], llm_calls := 0, events := [],
        processed := 0 }

/-- **C4** (amended).  The durable aggregates are recomputed from
exactly the persisted result entries *whenever they are written*: after
every item the generator generates (or reloads from the replay cache)
and at end of run, the manifest equals `build_dataset_manifest` of the
output file's contents; every evaluator report write — mid-run and
final — stores a report equal to `build_evaluation_report` of its own
persisted records.  The amendment records what the counterexample
exhibits: a *reused-output* item writes nothing, so the manifest file
predating the run stays on disk, stale, after that item is processed. -/
theorem aggregates_recomputed_at_every_write :
    (∀ (ctx : GenCtx) (blueprints : List ScenarioBlueprint) (seed : Int)
        (language output_path : String) (resume force : Bool) (total : Nat)
        (st : GenState) (bp : ScenarioBlueprint),
      bp ∈ blueprints →
      (blueprints.map (fun bp => bp.conversation_id)).Nodup →
      genInv blueprints st →
      pyDictGet bp.conversation_id st.conversations_by_id = none →
      genInv blueprints
        (genStep ctx blueprints seed language output_path resume force total st bp) ∧
      (genStep ctx blueprints seed language output_path resume force total st bp).manifest
        = some (build_dataset_manifest
            (genStep ctx blueprints seed language output_path resume force total
              st bp).file
            seed language ctx.model output_path)) ∧
    (∀ (ctx : GenCtx) (blueprints : List ScenarioBlueprint) (seed : Int)
        (language output_path : String) (force : Bool) (total : Nat)
        (st : GenState) (bp : ScenarioBlueprint),
      (pyDictGet bp.conversation_id st.conversations_by_id).isSome →
      (genStep ctx blueprints seed language output_path true force total st bp).manifest
          = st.manifest ∧
      (genStep ctx blueprints seed language output_path true force total st bp).file
          = st.file) ∧
    (∀ (ctx : GenCtx) (blueprints : List ScenarioBlueprint) (seed : Int)
        (language output_path : String) (start_from : Nat) (resume force : Bool)
        (existingOutput : List ConversationArtifact)
        (existingManifest : Option DatasetManifest)
        (cache0 : List (String × ConversationDraft)) (st : GenState),
      generateRun ctx blueprints seed language output_path start_from resume force
        existingOutput existingManifest cache0 = Except.ok st →
      st.manifest = some (build_dataset_manifest st.file seed language ctx.model
        output_path)) ∧
    (∀ (ctx : EvalCtx) (conversations : List ConversationArtifact) (seed : Int)
        (input_path output_path : String) (resume force : Bool) (total : Nat)
        (st : EvalState) (it : Nat × ConversationArtifact),
      pyDictGet it.2.conversation_id st.records_by_id = none →
      ∃ rep, (evalStep ctx conversations seed input_path output_path resume force total
          st it).report = some rep ∧
        rep = build_evaluation_report input_path output_path ctx.model rep.records) ∧
    (∀ (ctx : EvalCtx) (conversations : List ConversationArtifact) (seed : Int)
        (input_path output_path : String) (start_from : Nat) (resume force : Bool)
        (existingReport : Option EvaluationReport)
        (cache0 : List (String × ConversationEvaluation)) (st : EvalState),
      evaluateRun ctx conversations seed input_path output_path start_from resume force
        existingReport cache0 = Except.ok st →
      ∃ rep, st.report = some rep ∧
        rep = build_evaluation_report input_path output_path ctx.model rep.records) := by
  refine ⟨?_, ?_, ?_, ?_, ?_⟩
  · intro ctx blueprints seed language output_path resume force total st bp hbp hids
      hinv habs
    obtain ⟨hnd, hsubk, hperm⟩ := hinv
    obtain ⟨D, hfile, hby, hman⟩ := genStep_fresh_fields ctx blueprints seed language
      output_path resume force total st bp habs
    have hknot : bp.conversation_id ∉ st.conversations_by_id.map Prod.fst := by
      intro hk
      have hs := pyDictGet_isSome_of_mem hk
      rw [habs] at hs
      simp at hs
    have hndnew : ((st.conversations_by_id
        ++ [(bp.conversation_id, artifactOf bp D)]).map Prod.fst).Nodup := by
      rw [List.map_append]
      refine List.Nodup.append hnd (by simp) ?_
      intro a ha hb
      simp at hb
      subst hb
      exact hknot ha
    have hsubnew : ∀ k ∈ (st.conversations_by_id
        ++ [(bp.conversation_id, artifactOf bp D)]).map Prod.fst,
        k ∈ blueprints.map (fun bp => bp.conversation_id) := by
      intro k hk
      rw [List.map_append] at hk
      rcases List.mem_append.mp hk with h1 | h2
      · exact hsubk k h1
      · simp at h2
        subst h2
        exact List.mem_map.mpr ⟨bp, hbp, rfl⟩
    have hvalsnew : (st.conversations_by_id
        ++ [(bp.conversation_id, artifactOf bp D)]).map Prod.snd
        = st.conversations_by_id.map Prod.snd ++ [artifactOf bp D] := by
      simp
    have hordperm : (orderedConversations blueprints (st.conversations_by_id
        ++ [(bp.conversation_id, artifactOf bp D)])).Perm
        (st.file ++ [artifactOf bp D]) := by
      unfold orderedConversations
      rw [filterMap_get_over_blueprints]
      refine List.Perm.trans
        (filterMap_get_perm_values _ _ hids hndnew hsubnew) ?_
      rw [hvalsnew]
      exact List.Perm.append hperm.symm (List.Perm.refl _)
    refine ⟨⟨?_, ?_, ?_⟩, ?_⟩
    · rw [hby]
      exact hndnew
    · rw [hby]
      exact hsubnew
    · rw [hfile, hby, hvalsnew]
      exact List.Perm.append hperm (List.Perm.refl _)
    · rw [hman, hfile]
      exact congrArg some (build_dataset_manifest_perm hordperm seed language ctx.model
        output_path)
  · intro ctx blueprints seed language output_path force total st bp h
    unfold genStep
    rw [if_pos ⟨rfl, h⟩]
    exact ⟨rfl, rfl⟩
  · intro ctx blueprints seed language output_path start_from resume force existingOutput
      existingManifest cache0 st hrun
    unfold generateRun at hrun
    split at hrun
    · exact absurd hrun (by simp)
    · replace hrun := (Except.ok.injEq _ _).mp hrun
      subst hrun
      rfl
  · intro ctx conversations seed input_path output_path resume force total st it habs
    unfold evalStep
    rw [if_neg (by simp [habs])]
    exact ⟨_, rfl, rfl⟩
  · intro ctx conversations seed input_path output_path start_from resume force
      existingReport cache0 st hrun
    unfold evaluateRun at hrun
    split at hrun
    · replace hrun := (Except.ok.injEq _ _).mp hrun
      subst hrun
      exact ⟨_, rfl, rfl⟩
    · split at hrun
      · exact absurd hrun (by simp)
      · replace hrun := (Except.ok.injEq _ _).mp hrun
        subst hrun
        exact ⟨_, rfl, rfl⟩

/-- Witness for C4 at concrete states: a fresh `c2` step from a
one-entry store, a reused `c1` step, and complete generator and
evaluator runs. -/
theorem aggregates_recomputed_at_every_write_witness :
    (genInv c4Blueprints (genStep sampleGenCtx c4Blueprints 0 "uk" "out.jsonl" true false
        2 c4State0 (sampleBlueprint "c2" 8)) ∧
      (genStep sampleGenCtx c4Blueprints 0 "uk" "out.jsonl" true false 2 c4State0
          (sampleBlueprint "c2" 8)).manifest
        = some (build_dataset_manifest
            (genStep sampleGenCtx c4Blueprints 0 "uk" "out.jsonl" true false 2 c4State0
              (sampleBlueprint "c2" 8)).file 0 "uk" "m" "out.jsonl")) ∧
    (c4State1.manifest = c4State0.manifest ∧ c4State1.file = c4State0.file) ∧
    (generateRun sampleGenCtx c4Blueprints 0 "uk" "out.jsonl" 0 true false [c4Artifact1]
        (some c4StaleManifest) [] = Except.ok c4GenResult ∧
      c4GenResult.manifest = some (build_dataset_manifest c4GenResult.file 0 "uk" "m"
        "out.jsonl")) ∧
    (∃ rep, (evalStep sampleEvalCtx c4Conversations 0 "in.jsonl" "report.json" true false
        2 { report := none, records_by_id := [], cache := [], llm_calls := 0,
            events := [], processed := 0 } (0, c4Artifact1)).report = some rep ∧
      rep = build_evaluation_report "in.jsonl" "report.json" "m" rep.records) ∧
    (evaluateRun sampleEvalCtx c4Conversations 0 "in.jsonl" "report.json" 0 true false
        none [] = Except.ok c4EvalResult ∧
      ∃ rep, c4EvalResult.report = some rep ∧
        rep = build_evaluation_report "in.jsonl" "report.json" "m" rep.records) := by
  refine ⟨?_, ?_, ?_, ?_, ?_⟩
  · exact aggregates_recomputed_at_every_write.1 sampleGenCtx c4Blueprints 0 "uk"
      "out.jsonl" true false 2 c4State0 (sampleBlueprint "c2" 8) (by decide) (by decide)
      ⟨by decide, by decide, by decide⟩ (by decide)
  · exact aggregates_recomputed_at_every_write.2.1 sampleGenCtx c4Blueprints 0 "uk"
      "out.jsonl" false 2 c4State0 (sampleBlueprint "c1" 7) (by decide)
  · have hrun : generateRun sampleGenCtx c4Blueprints 0 "uk" "out.jsonl" 0 true false
        [c4Artifact1] (some c4StaleManifest) [] = Except.ok c4GenResult := rfl
    exact ⟨hrun, aggregates_recomputed_at_every_write.2.2.1 sampleGenCtx c4Blueprints 0
      "uk" "out.jsonl" 0 true false [c4Artifact1] (some c4StaleManifest) [] c4GenResult
      hrun⟩
  · exact aggregates_recomputed_at_every_write.2.2.2.1 sampleEvalCtx c4Conversations 0
      "in.jsonl" "report.json" true false 2
      { report := none, records_by_id := [], cache := [], llm_calls := 0, events := [],
        processed := 0 } (0, c4Artifact1) (by decide)
  · have hrun : evaluateRun sampleEvalCtx c4Conversations 0 "in.jsonl" "report.json" 0
        true false none [] = Except.ok c4EvalResult := rfl
    exact ⟨hrun, aggregates_recomputed_at_every_write.2.2.2.2 sampleEvalCtx
      c4Conversations 0 "in.jsonl" "report.json" 0 true false none [] c4EvalResult hrun⟩

/-- Counterexample for C4 as frozen: in a resumed run whose output
already holds `c1` (and whose manifest file, untouched by startup, still
describes two conversations), the first loop iteration processes `c1` as
`reused-output` and writes nothing — immediately after that item the
durable manifest still says 2 conversations while recomputing the
aggregate from the durably persisted entries gives 1. -/
theorem manifest_stale_after_reused_item :
    loadExistingConversations (c4Blueprints.map (fun bp => bp.conversation_id)) true
        false [c4Artifact1]
      = ([c4Artifact1], [("c1", c4Artifact1)]) ∧
    c4State1.events = [(1, 2, "c1", "reused-output")] ∧
    c4State1.manifest = some c4StaleManifest ∧
    c4StaleManifest.total_conversations = 2 ∧
    (build_dataset_manifest c4State1.file 0 "uk" "m" "out.jsonl").total_conversations
      = 1 := by
  refine ⟨by decide, by decide, rfl, by decide, by decide⟩


/-! ### Claim C10: `build_response_json_schema` (gemini_client.py lines 19–57)

`_normalize` recurses through merged reference targets, which need not
shrink the node, so the embedding is fuelled: `none` models the
`RecursionError` of a cyclic `$defs` graph (and the `TypeError` of
splatting a non-dict reference target).  `str(node["$ref"])` uses
Python `str`/`repr`; `repr` of a string is embedded with backslash and
quote escaping (the only characters whose escaping could influence the
`$defs` lookup for realistic definition names). -/

def lastSegAux : List Char → List Char → List Char
  | [], acc => acc.reverse
  | c :: rest, acc => if c = '/' then lastSegAux rest [] else lastSegAux rest (c :: acc)

/-- `s.split("/")[-1]`. -/
def lastSplitSegment (s : String) : String := ⟨lastSegAux s.data []⟩

/-- Python `repr` of a string (single quotes; backslash / quote escapes). -/
def pyReprStr (s : String) : String :=
  "'" ++ ⟨s.data.flatMap (fun c =>
    if c = '\\' then ['\\', '\\'] else if c = '\'' then ['\\', '\''] else [c])⟩ ++ "'"

mutual

/-- Python `repr` of a JSON value. -/
def pyRepr : Json → String
  | Json.null => "None"
  | Json.bool true => "True"
  | Json.bool false => "False"
  | Json.num n => ⟨intChars n⟩
  | Json.str s => pyReprStr s
  | Json.arr items => "[" ++ String.intercalate ", " (pyReprList items) ++ "]"
  | Json.obj kvs => "\x7b" ++ String.intercalate ", " (pyReprObj kvs) ++ "\x7d"
  termination_by j => sizeOf j

def pyReprList : List Json → List String
  | [] => []
  | j :: rest => pyRepr j :: pyReprList rest
  termination_by l => sizeOf l

def pyReprObj : List (String × Json) → List String
  | [] => []
  | (k, v) :: rest => (pyReprStr k ++ ": " ++ pyRepr v) :: pyReprObj rest
  termination_by l => sizeOf l

end

/-- Python `str` of a JSON value (`str` of a `str` is itself). -/
def pyStrJson : Json → String
  | Json.str s => s
  | j => pyRepr j

def bannedSchemaKeys : List String :=
  ["$defs", "$schema", "additionalProperties", "title", "default"]

/-- `{**a, **b}`: entries of `a` in order, updated/extended by `b`. -/
def pyDictMerge (a b : List (String × Json)) : List (String × Json) :=
  b.foldl (fun d kv => pyDictInsert kv.1 kv.2 d) a

def optMapList {α β} (f : α → Option β) : List α → Option (List β)
  | [] => some []
  | a :: rest =>
      match f a, optMapList f rest with
      | some b, some rest' => some (b :: rest')
      | _, _ => none

/-- `{key: _normalize(value) for key, value in node.items()}`. -/
def optMapValues (f : Json → Option Json) :
    List (String × Json) → Option (List (String × Json))
  | [] => some []
  | (k, v) :: rest =>
      match f v, optMapValues f rest with
      | some v', some rest' => some ((k, v') :: rest')
      | _, _ => none

/-- The `normalized` loop of the plain branch: skip the unsupported
keywords, let `f` see the key so `properties` can preserve its keys. -/
def normalizeEntries (f : String → Json → Option Json) :
    List (String × Json) → Option (List (String × Json))
  | [] => some []
  | (k, v) :: rest =>
      if k ∈ bannedSchemaKeys then normalizeEntries f rest
      else
        match f k v, normalizeEntries f rest with
        | some v', some rest' => some ((k, v') :: rest')
        | _, _ => none

/-- `_normalize(node, preserve_mapping_keys=preserve)`, fuelled. -/
def _normalize (definitions : Json) : Nat → Json → Bool → Option Json
  | 0, _, _ => none
  | fuel + 1, node, preserve =>
      match node with
      | Json.arr items =>
          (optMapList (fun j => _normalize definitions fuel j false) items).map Json.arr
      | Json.obj kvs =>
          match Json.lookup "$ref" kvs with
          | some refv =>
              let ref_name := lastSplitSegment (pyStrJson refv)
              let rest := kvs.filter (fun kv => ¬ kv.1 = "$ref")
              match definitions with
              | Json.obj dkvs =>
                  match pyDictGet ref_name dkvs with
                  | none => _normalize definitions fuel (Json.obj (pyDictMerge [] rest)) false
                  | some (Json.obj rkvs) =>
                      _normalize definitions fuel (Json.obj (pyDictMerge rkvs rest)) false
                  | some _ => none
              | _ => none
          | none =>
              if preserve then
                (optMapValues (fun v => _normalize definitions fuel v false) kvs).map
                  Json.obj
              else
                (normalizeEntries (fun k v =>
                  _normalize definitions fuel v (decide (k = "properties"))) kvs).map
                  Json.obj
      | other => some other

/-- `build_response_json_schema`, fuelled like `_normalize`. -/
def build_response_json_schema (fuel : Nat) (raw_schema : Json) : Option Json :=
  match raw_schema with
  | Json.obj kvs =>
      let definitions := (Json.lookup "$defs" kvs).getD (Json.obj [])
      _normalize definitions fuel (Json.obj kvs) false
  | _ => none

mutual

/-- No banned keyword appears at a schema position; keys of a
`properties` map are unconstrained (their sub-schemas are). -/
def scrubbedJson : Json → Bool
  | Json.arr items => scrubbedList items
  | Json.obj kvs => scrubbedObj kvs
  | _ => true
  termination_by j => sizeOf j

def scrubbedList : List Json → Bool
  | [] => true
  | j :: rest => scrubbedJson j && scrubbedList rest
  termination_by l => sizeOf l

def scrubbedObj : List (String × Json) → Bool
  | [] => true
  | (k, v) :: rest =>
      decide (k ≠ "$ref") && decide (k ∉ bannedSchemaKeys) &&
      (if k = "properties" then scrubbedJson v || scrubbedPropsOnly v
       else scrubbedJson v) &&
      scrubbedObj rest
  termination_by l => sizeOf l

def scrubbedPropsOnly : Json → Bool
  | Json.obj kvs => scrubbedPropsValues kvs
  | _ => false
  termination_by j => sizeOf j

def scrubbedPropsValues : List (String × Json) → Bool
  | [] => true
  | (_, v) :: rest => scrubbedJson v && scrubbedPropsValues rest
  termination_by l => sizeOf l

end


theorem json_lookup_eq_pyDictGet (k : String) :
    ∀ (l : List (String × Json)), Json.lookup k l = pyDictGet k l := by
  intro l
  induction l with
  | nil => rfl
  | cons p r ih =>
    obtain ⟨a, b⟩ := p
    rw [Json.lookup, pyDictGet, ih]

theorem json_lookup_none_forall (k0 : String) :
    ∀ (kvs : List (String × Json)), Json.lookup k0 kvs = none →
      ∀ kv ∈ kvs, kv.1 ≠ k0 := by
  intro kvs
  induction kvs with
  | nil => intro _ kv hkv; simp at hkv
  | cons p rest ih =>
    intro h kv hkv
    obtain ⟨k1, v1⟩ := p
    rw [Json.lookup] at h
    by_cases he : k1 = k0
    · rw [if_pos he] at h
      exact absurd h (by simp)
    · rw [if_neg he] at h
      rcases List.mem_cons.mp hkv with rfl | hm
      · exact he
      · exact ih h kv hm

/-- Scrub invariant of `_normalize`, by induction on the fuel: a
successful plain call is fully scrubbed, a successful
`preserve_mapping_keys` call is either fully scrubbed (the map carried a
`$ref` key and was treated as a reference node) or has arbitrary keys
over scrubbed values. -/
theorem normalize_scrubbed (definitions : Json) :
    ∀ fuel,
      (∀ node out, _normalize definitions fuel node false = some out →
        scrubbedJson out = true) ∧
      (∀ node out, _normalize definitions fuel node true = some out →
        (scrubbedJson out || scrubbedPropsOnly out) = true) := by
  intro fuel
  induction fuel with
  | zero =>
    constructor <;> intro node out h <;> simp [_normalize] at h
  | succ fuel ih =>
    obtain ⟨ihF, ihT⟩ := ih
    have hlist : ∀ (items : List Json) out,
        optMapList (fun j => _normalize definitions fuel j false) items = some out →
        scrubbedList out = true := by
      intro items
      induction items with
      | nil =>
        intro out h
        simp [optMapList] at h
        subst h
        rw [scrubbedList]
      | cons j rest ihl =>
        intro out h
        cases hj : _normalize definitions fuel j false with
        | none =>
          simp only [optMapList, hj] at h
          exact Option.noConfusion h
        | some j' =>
          cases hrest : optMapList (fun j => _normalize definitions fuel j false) rest with
          | none =>
            simp only [optMapList, hj, hrest] at h
            exact Option.noConfusion h
          | some rest' =>
            simp only [optMapList, hj, hrest, Option.some.injEq] at h
            subst h
            rw [scrubbedList, ihF j j' hj, ihl rest' hrest]
            rfl
    have hpres : ∀ (kvs : List (String × Json)) out,
        optMapValues (fun v => _normalize definitions fuel v false) kvs = some out →
        scrubbedPropsValues out = true := by
      intro kvs
      induction kvs with
      | nil =>
        intro out h
        simp [optMapValues] at h
        subst h
        rw [scrubbedPropsValues]
      | cons kv rest ihl =>
        obtain ⟨k, v⟩ := kv
        intro out h
        cases hv : _normalize definitions fuel v false with
        | none =>
          simp only [optMapValues, hv] at h
          exact Option.noConfusion h
        | some v' =>
          cases hrest : optMapValues (fun v => _normalize definitions fuel v false) rest with
          | none =>
            simp only [optMapValues, hv, hrest] at h
            exact Option.noConfusion h
          | some rest' =>
            simp only [optMapValues, hv, hrest, Option.some.injEq] at h
            subst h
            rw [scrubbedPropsValues, ihF v v' hv, ihl rest' hrest]
            rfl
    have hobj : ∀ (kvs : List (String × Json)) out,
        (∀ kv ∈ kvs, kv.1 ≠ "$ref") →
        normalizeEntries (fun k v =>
          _normalize definitions fuel v (decide (k = "properties"))) kvs = some out →
        scrubbedObj out = true := by
      intro kvs
      induction kvs with
      | nil =>
        intro out _ h
        simp [normalizeEntries] at h
        subst h
        rw [scrubbedObj]
      | cons kv rest ihl =>
        obtain ⟨k, v⟩ := kv
        intro out hnr h
        by_cases hb : k ∈ bannedSchemaKeys
        · rw [normalizeEntries, if_pos hb] at h
          exact ihl out (fun kv hkv => hnr kv (by simp [hkv])) h
        · cases hv : _normalize definitions fuel v (decide (k = "properties")) with
          | none =>
            simp only [normalizeEntries, if_neg hb, hv] at h
            exact Option.noConfusion h
          | some v' =>
            cases hrest : normalizeEntries (fun k v =>
                _normalize definitions fuel v (decide (k = "properties"))) rest with
            | none =>
              simp only [normalizeEntries, if_neg hb, hv, hrest] at h
              exact Option.noConfusion h
            | some rest' =>
              simp only [normalizeEntries, if_neg hb, hv, hrest,
                Option.some.injEq] at h
              subst h
              have hkref : k ≠ "$ref" := hnr (k, v) (by simp)
              rw [scrubbedObj]
              have hval : (if k = "properties" then
                  scrubbedJson v' || scrubbedPropsOnly v' else scrubbedJson v') = true := by
                by_cases hk : k = "properties"
                · subst hk
                  rw [if_pos rfl]
                  exact ihT v v' hv
                · rw [if_neg hk]
                  rw [decide_eq_false hk] at hv
                  exact ihF v v' hv
              rw [hval, decide_eq_true hkref, decide_eq_true hb,
                ihl rest' (fun kv hkv => hnr kv (by simp [hkv])) hrest]
              rfl
    constructor
    · intro node out h
      cases node with
      | null => simp only [_normalize, Option.some.injEq] at h; subst h; simp [scrubbedJson]
      | bool b => simp only [_normalize, Option.some.injEq] at h; subst h; simp [scrubbedJson]
      | num n => simp only [_normalize, Option.some.injEq] at h; subst h; simp [scrubbedJson]
      | str s => simp only [_normalize, Option.some.injEq] at h; subst h; simp [scrubbedJson]
      | arr items =>
        simp only [_normalize] at h
        cases hm : optMapList (fun j => _normalize definitions fuel j false) items with
        | none => rw [hm] at h; simp at h
        | some items' =>
          rw [hm] at h
          simp only [Option.map_some', Option.some.injEq] at h
          subst h
          rw [scrubbedJson]
          exact hlist items items' hm
      | obj kvs =>
        simp only [_normalize] at h
        cases hr : Json.lookup "$ref" kvs with
        | some refv =>
          rw [hr] at h
          cases definitions with
          | obj dkvs =>
            simp only [] at h
            cases hg : pyDictGet (lastSplitSegment (pyStrJson refv)) dkvs with
            | none =>
              rw [hg] at h
              exact ihF _ out h
            | some rv =>
              rw [hg] at h
              cases rv with
              | obj rkvs => exact ihF _ out h
              | null => simp at h
              | bool b => simp at h
              | num n => simp at h
              | str s => simp at h
              | arr l => simp at h
          | null => simp at h
          | bool b => simp at h
          | num n => simp at h
          | str s => simp at h
          | arr l => simp at h
        | none =>
          rw [hr] at h
          simp only [Bool.false_eq_true, if_false, ite_false, reduceIte] at h
          cases hm : normalizeEntries (fun k v =>
              _normalize definitions fuel v (decide (k = "properties"))) kvs with
          | none => rw [hm] at h; simp at h
          | some es =>
            rw [hm] at h
            simp only [Option.map_some', Option.some.injEq] at h
            subst h
            rw [scrubbedJson]
            exact hobj kvs es (json_lookup_none_forall "$ref" kvs hr) hm
    · intro node out h
      cases node with
      | null =>
        simp only [_normalize, Option.some.injEq] at h
        subst h
        simp [scrubbedJson]
      | bool b =>
        simp only [_normalize, Option.some.injEq] at h
        subst h
        simp [scrubbedJson]
      | num n =>
        simp only [_normalize, Option.some.injEq] at h
        subst h
        simp [scrubbedJson]
      | str s =>
        simp only [_normalize, Option.some.injEq] at h
        subst h
        simp [scrubbedJson]
      | arr items =>
        simp only [_normalize] at h
        cases hm : optMapList (fun j => _normalize definitions fuel j false) items with
        | none => rw [hm] at h; simp at h
        | some items' =>
          rw [hm] at h
          simp only [Option.map_some', Option.some.injEq] at h
          subst h
          rw [Bool.or_eq_true]
          refine Or.inl ?_
          rw [scrubbedJson]
          exact hlist items items' hm
      | obj kvs =>
        simp only [_normalize] at h
        cases hr : Json.lookup "$ref" kvs with
        | some refv =>
          rw [hr] at h
          cases definitions with
          | obj dkvs =>
            simp only [] at h
            cases hg : pyDictGet (lastSplitSegment (pyStrJson refv)) dkvs with
            | none =>
              rw [hg] at h
              rw [Bool.or_eq_true]
              exact Or.inl (ihF _ out h)
            | some rv =>
              rw [hg] at h
              cases rv with
              | obj rkvs =>
                rw [Bool.or_eq_true]
                exact Or.inl (ihF _ out h)
              | null => simp at h
              | bool b => simp at h
              | num n => simp at h
              | str s => simp at h
              | arr l => simp at h
          | null => simp at h
          | bool b => simp at h
          | num n => simp at h
          | str s => simp at h
          | arr l => simp at h
        | none =>
          rw [hr] at h
          simp only [if_true, reduceIte] at h
          cases hm : optMapValues (fun v => _normalize definitions fuel v false) kvs with
          | none => rw [hm] at h; simp at h
          | some es =>
            rw [hm] at h
            simp only [Option.map_some', Option.some.injEq] at h
            subst h
            rw [Bool.or_eq_true]
            refine Or.inr ?_
            rw [scrubbedPropsOnly]
            exact hpres kvs es hm


theorem normalizeEntries_keys {f : String → Json → Option Json} :
    ∀ (kvs out : List (String × Json)), normalizeEntries f kvs = some out →
      out.map Prod.fst
        = (kvs.filter (fun kv => kv.1 ∉ bannedSchemaKeys)).map Prod.fst := by
  intro kvs
  induction kvs with
  | nil =>
    intro out h
    simp [normalizeEntries] at h
    subst h
    rfl
  | cons kv rest ih =>
    obtain ⟨k, v⟩ := kv
    intro out h
    by_cases hb : k ∈ bannedSchemaKeys
    · rw [normalizeEntries, if_pos hb] at h
      rw [List.filter_cons, if_neg (by simpa using hb)]
      exact ih out h
    · cases hv : f k v with
      | none =>
        simp only [normalizeEntries, if_neg hb, hv] at h
        exact Option.noConfusion h
      | some v' =>
        cases hrest : normalizeEntries f rest with
        | none =>
          simp only [normalizeEntries, if_neg hb, hv, hrest] at h
          exact Option.noConfusion h
        | some rest' =>
          simp only [normalizeEntries, if_neg hb, hv, hrest, Option.some.injEq] at h
          subst h
          rw [List.filter_cons, if_pos (by simpa using hb), List.map_cons, List.map_cons,
            ih rest' hrest]

theorem normalizeEntries_lookup {f : String → Json → Option Json} :
    ∀ (kvs out : List (String × Json)), normalizeEntries f kvs = some out →
      ∀ k, k ∉ bannedSchemaKeys →
        Json.lookup k out = (Json.lookup k kvs).bind (fun v => f k v) := by
  intro kvs
  induction kvs with
  | nil =>
    intro out h k _
    simp [normalizeEntries] at h
    subst h
    rfl
  | cons kv rest ih =>
    obtain ⟨k1, v1⟩ := kv
    intro out h k hk
    by_cases hb : k1 ∈ bannedSchemaKeys
    · rw [normalizeEntries, if_pos hb] at h
      have hne : ¬ k1 = k := fun he => hk (he ▸ hb)
      rw [Json.lookup, if_neg hne]
      exact ih out h k hk
    · cases hv : f k1 v1 with
      | none =>
        simp only [normalizeEntries, if_neg hb, hv] at h
        exact Option.noConfusion h
      | some v1' =>
        cases hrest : normalizeEntries f rest with
        | none =>
          simp only [normalizeEntries, if_neg hb, hv, hrest] at h
          exact Option.noConfusion h
        | some rest' =>
          simp only [normalizeEntries, if_neg hb, hv, hrest, Option.some.injEq] at h
          subst h
          by_cases he : k1 = k
          · subst he
            rw [Json.lookup, if_pos rfl, Json.lookup, if_pos rfl]
            rw [Option.some_bind, hv]
          · rw [Json.lookup, if_neg he, Json.lookup, if_neg he]
            exact ih rest' hrest k hk

theorem optMapValues_keys {f : Json → Option Json} :
    ∀ (kvs out : List (String × Json)), optMapValues f kvs = some out →
      out.map Prod.fst = kvs.map Prod.fst := by
  intro kvs
  induction kvs with
  | nil =>
    intro out h
    simp [optMapValues] at h
    subst h
    rfl
  | cons kv rest ih =>
    obtain ⟨k, v⟩ := kv
    intro out h
    cases hv : f v with
    | none =>
      simp only [optMapValues, hv] at h
      exact Option.noConfusion h
    | some v' =>
      cases hrest : optMapValues f rest with
      | none =>
        simp only [optMapValues, hv, hrest] at h
        exact Option.noConfusion h
      | some rest' =>
        simp only [optMapValues, hv, hrest, Option.some.injEq] at h
        subst h
        rw [List.map_cons, List.map_cons, ih rest' hrest]

def c10Raw : Json :=
  Json.obj [("type", Json.str "object"), ("title", Json.str "Model"),
    ("properties", Json.obj [("$ref", Json.obj [("type", Json.str "string"),
      ("title", Json.str "T")])])]

def c10GoodRaw : Json :=
  Json.obj [("type", Json.str "object"), ("title", Json.str "Model"),
    ("additionalProperties", Json.bool false),
    ("properties", Json.obj [("title", Json.obj [("type", Json.str "string"),
        ("title", Json.str "Title"), ("default", Json.str "x")]),
      ("default", Json.obj [("type", Json.str "integer")])])]

def c10Result : Json :=
  match build_response_json_schema 10 c10GoodRaw with
  | some j => j
  | none => Json.null

/-- **C10** (amended).  A successful `build_response_json_schema` output
carries none of `$ref`, `$defs`, `$schema`, `additionalProperties`,
`title`, `default` as schema keywords, and the keys of a `properties`
map are preserved verbatim *provided no property is literally named*
`"$ref"`: because `_normalize` checks `"$ref" in node` before honouring
`preserve_mapping_keys`, a property named `$ref` makes the whole
`properties` map be treated as a reference node (the counterexample
shows it being resolved away).  Success of the fuelled embedding models
the Python call returning (no `RecursionError` from cyclic `$defs`, no
`TypeError` from splatting a non-dict reference target). -/
theorem build_response_json_schema_scrubs_and_preserves :
    (∀ (fuel : Nat) (raw out : Json),
      build_response_json_schema fuel raw = some out → scrubbedJson out = true) ∧
    (∀ (fuel : Nat) (kvs pkvs : List (String × Json)) (out : Json),
      Json.lookup "$ref" kvs = none →
      Json.lookup "properties" kvs = some (Json.obj pkvs) →
      Json.lookup "$ref" pkvs = none →
      build_response_json_schema (fuel + 2) (Json.obj kvs) = some out →
      ∃ okvs pkvs', out = Json.obj okvs ∧
        Json.lookup "properties" okvs = some (Json.obj pkvs') ∧
        pkvs'.map Prod.fst = pkvs.map Prod.fst) := by
  constructor
  · intro fuel raw out h
    cases raw with
    | obj kvs => exact (normalize_scrubbed _ fuel).1 _ out h
    | null => simp [build_response_json_schema] at h
    | bool b => simp [build_response_json_schema] at h
    | num n => simp [build_response_json_schema] at h
    | str s => simp [build_response_json_schema] at h
    | arr l => simp [build_response_json_schema] at h
  · intro fuel kvs pkvs out hrefk hprops hrefp hrun
    unfold build_response_json_schema at hrun
    simp only [] at hrun
    rw [_normalize.eq_def] at hrun
    simp only [hrefk, Bool.false_eq_true, if_false, ite_false, reduceIte] at hrun
    cases hes : normalizeEntries (fun k v =>
        _normalize ((Json.lookup "$defs" kvs).getD (Json.obj [])) (fuel + 1) v
          (decide (k = "properties"))) kvs with
    | none =>
      rw [hes] at hrun
      simp at hrun
    | some okvs =>
      rw [hes] at hrun
      simp only [Option.map_some', Option.some.injEq] at hrun
      subst hrun
      have hlk := normalizeEntries_lookup kvs okvs hes "properties" (by decide)
      rw [hprops, Option.some_bind] at hlk
      rw [_normalize.eq_def] at hlk
      simp only [hrefp, decide_True, if_true, reduceIte] at hlk
      have hmemp : ("properties", Json.obj pkvs) ∈ kvs := by
        rw [json_lookup_eq_pyDictGet] at hprops
        exact pyDictGet_mem hprops
      have hmemk : "properties" ∈ okvs.map Prod.fst := by
        rw [normalizeEntries_keys kvs okvs hes]
        refine List.mem_map.mpr ⟨("properties", Json.obj pkvs), ?_, rfl⟩
        rw [List.mem_filter]
        refine ⟨hmemp, ?_⟩
        show decide (("properties" : String) ∉ bannedSchemaKeys) = true
        decide
      have hsome : (Json.lookup "properties" okvs).isSome := by
        rw [json_lookup_eq_pyDictGet]
        exact pyDictGet_isSome_of_mem hmemk
      cases hpv : optMapValues (fun v =>
          _normalize ((Json.lookup "$defs" kvs).getD (Json.obj [])) fuel v false)
          pkvs with
      | none =>
        rw [hpv] at hlk
        rw [hlk] at hsome
        simp at hsome
      | some pkvs' =>
        rw [hpv] at hlk
        simp only [Option.map_some'] at hlk
        exact ⟨okvs, pkvs', rfl, hlk, optMapValues_keys pkvs pkvs' hpv⟩

/-- Witness for C10: a schema whose `properties` map has members
literally named `title` and `default` (with `title`/`default`/
`additionalProperties` keywords scattered at schema positions). -/
theorem build_response_json_schema_scrubs_and_preserves_witness :
    build_response_json_schema 10 c10GoodRaw = some c10Result ∧
    scrubbedJson c10Result = true ∧
    (∃ okvs pkvs', c10Result = Json.obj okvs ∧
      Json.lookup "properties" okvs = some (Json.obj pkvs') ∧
      pkvs'.map Prod.fst = ["title", "default"]) := by
  have hrun : build_response_json_schema 10 c10GoodRaw = some c10Result := rfl
  refine ⟨hrun, build_response_json_schema_scrubs_and_preserves.1 10 c10GoodRaw c10Result
    hrun, ?_⟩
  obtain ⟨okvs, pkvs', heq, hlk, hkeys⟩ :=
    build_response_json_schema_scrubs_and_preserves.2 8
      [("type", Json.str "object"), ("title", Json.str "Model"),
        ("additionalProperties", Json.bool false),
        ("properties", Json.obj [("title", Json.obj [("type", Json.str "string"),
            ("title", Json.str "Title"), ("default", Json.str "x")]),
          ("default", Json.obj [("type", Json.str "integer")])])]
      [("title", Json.obj [("type", Json.str "string"), ("title", Json.str "Title"),
          ("default", Json.str "x")]),
        ("default", Json.obj [("type", Json.str "integer")])]
      c10Result rfl rfl rfl hrun
  refine ⟨okvs, pkvs', heq, hlk, ?_⟩
  rw [hkeys]
  rfl

/-- Counterexample for C10 as frozen: a property literally named `$ref`
(a Pydantic field with `alias="$ref"`) is *not* preserved — the
`"$ref" in node` check fires before `preserve_mapping_keys`, the whole
`properties` map is treated as a reference node, and the property
vanishes from the wire schema. -/
theorem property_named_ref_not_preserved :
    build_response_json_schema 10 c10Raw
      = some (Json.obj [("type", Json.str "object"), ("properties", Json.obj [])]) ∧
    (match c10Raw with
      | Json.obj kvs =>
          match Json.lookup "properties" kvs with
          | some (Json.obj pkvs) => pkvs.map Prod.fst
          | _ => []
      | _ => []) = ["$ref"] := by
  exact ⟨rfl, rfl⟩


end SupportAnalytics
